import Mathlib

/-!
Native backends of getlantern/systray.

A shallow embedding of the two native backends of the system tray shim
(`systray/systray/systray.cpp` for Windows, `systray_linux.c` for Linux) and
theorems about menu item identity, selection callbacks, event loop start-up
and deferred tasks.

Conventions of the embedding.
* A C `int` is an `Int` in the range `-2^31 ≤ x < 2^31` (`InIntRange`).
  A `ULONG_PTR` is a `Nat` below `2^64`; the casts `(ULONG_PTR)menuId` and the
  implicit conversion back to `int` are `toULONG_PTR` and `toInt`.
* Native API calls whose result the code inspects and that can fail for
  reasons outside the program (`GetMenuItemInfo`, `CreateWindow`,
  `SetMenuInfo`, `Shell_NotifyIcon`, `mkstemp`, `write`) take their outcome
  from an explicit argument.
* Calls to the host callbacks are recorded in the order they happen.
-/

namespace Systray

/-! ## C integers -/

/-- The values of a 32 bit C `int`. -/
def InIntRange (x : Int) : Prop := -2147483648 ≤ x ∧ x < 2147483648

instance (x : Int) : Decidable (InIntRange x) := by
  unfold InIntRange; exact inferInstance

/-- The cast `(ULONG_PTR)x` of an `int` on a 64 bit target: sign extension,
read as an unsigned 64 bit value. -/
def toULONG_PTR (x : Int) : Nat := (x % 18446744073709551616).toNat

/-- The conversion of an unsigned value to `int`: the low 32 bits, read as a
two's complement number. -/
def toInt (n : Nat) : Int :=
  if n % 4294967296 < 2147483648 then ((n % 4294967296 : Nat) : Int)
  else ((n % 4294967296 : Nat) : Int) - 4294967296

/-- The conversion of a `WPARAM` to the `UINT` position that `GetMenuItemInfo`
receives (through the `int index` parameter of `GetMenuItemId`): the low 32
bits. -/
def toUINT (n : Nat) : Nat := n % 4294967296

/-- The conversion of a signed value to the 64 bit unsigned `gsize`, as in
`g_bytes_new_static(iconBytes, length)` and in the comparison
`written != size`. -/
def toGsize (x : Int) : Nat := (x % 18446744073709551616).toNat

end Systray

/-! ## Windows backend (`systray.cpp`) -/

namespace Windows

open Systray

/-- Value of `MFS_DISABLED` in the Windows SDK (`MFS_GRAYED`, `0x3`). -/
def MFS_DISABLED : Nat := 3

/-- Value of `MFS_CHECKED` in the Windows SDK (`0x8`). -/
def MFS_CHECKED : Nat := 8

/-- Value of `EXIT_SUCCESS`. -/
def EXIT_SUCCESS : Int := 0

/-- Value of `EXIT_FAILURE`. -/
def EXIT_FAILURE : Int := 1

/-- The members of `MENUITEMINFO` that `add_or_update_menu_item` fills in and
that the menu keeps for an item: the title (`dwTypeData`), the application
data (`dwItemData`) and the state bits (`fState`). -/
structure MENUITEMINFO where
  dwTypeData : String
  dwItemData : Nat
  fState : Nat
  deriving DecidableEq

/-- The popup menu behind `hTrayMenu`: its items by position. -/
abbrev HMENU := List MENUITEMINFO

/-- The call `GetMenuItemInfo(hMenu, uItem, TRUE, &info)` with `MIIM_DATA`: it
fails at a position that holds no item, and `ok uItem` tells whether the
system call succeeds at a position that holds one. -/
def GetMenuItemInfo (ok : Nat → Bool) (hMenu : HMENU) (uItem : Nat) : Option MENUITEMINFO :=
  if ok uItem then hMenu[uItem]? else none

/-- The call `SetMenuItemInfo(hMenu, uItem, TRUE, &info)` with the mask
`MIIM_FTYPE | MIIM_STRING | MIIM_DATA | MIIM_STATE`: the item at the position
takes the title, data and state of `info`; a position without item changes
nothing. -/
def SetMenuItemInfo (hMenu : HMENU) (uItem : Nat) (info : MENUITEMINFO) : HMENU :=
  hMenu.set uItem info

/-- The call `InsertMenuItem(hMenu, -1, TRUE, &info)`: position `(UINT)-1` is
past every item, so the new item goes to the end of the menu. -/
def InsertMenuItem (hMenu : HMENU) (info : MENUITEMINFO) : HMENU :=
  hMenu ++ [info]

/-- Function `GetMenuItemId(index)`: `-1` when `GetMenuItemInfo` fails, else the item
data converted to `int`. -/
def GetMenuItemId (ok : Nat → Bool) (hTrayMenu : HMENU) (index : Nat) : Int :=
  match GetMenuItemInfo ok hTrayMenu index with
  | none => -1
  | some menuItemInfo => toInt menuItemInfo.dwItemData

/-- The state bits computed at the head of `add_or_update_menu_item`. -/
def menuItemState (disabled checked : Int) : Nat :=
  let fState := 0
  let fState := if disabled = 1 then fState ||| MFS_DISABLED else fState
  let fState := if checked = 1 then fState ||| MFS_CHECKED else fState
  fState

/-- The test that makes the loop of `add_or_update_menu_item` update position
`j`: the id read there is not `-1` and equals `menuId`. -/
def Matches (ok : Nat → Bool) (hTrayMenu : HMENU) (menuId : Int) (j : Nat) : Prop :=
  GetMenuItemId ok hTrayMenu j ≠ -1 ∧ menuId = GetMenuItemId ok hTrayMenu j

/-- The `for` loop of `add_or_update_menu_item`, entered at position `i` with
`fuel` iterations left to spend: the result is the menu and the value of `i`
when the loop is left. -/
def scanMenu (ok : Nat → Bool) (menuId : Int) (menuItemInfo : MENUITEMINFO) (itemCount : Nat) :
    Nat → Nat → HMENU → HMENU × Nat
  | 0, i, hTrayMenu => (hTrayMenu, i)
  | fuel + 1, i, hTrayMenu =>
    if i < itemCount then
      let id := GetMenuItemId ok hTrayMenu i
      if -1 = id then scanMenu ok menuId menuItemInfo itemCount fuel (i + 1) hTrayMenu
      else if menuId = id then (SetMenuItemInfo hTrayMenu i menuItemInfo, i)
      else scanMenu ok menuId menuItemInfo itemCount fuel (i + 1) hTrayMenu
    else (hTrayMenu, i)

/-- Function `add_or_update_menu_item(menuId, title, tooltip, disabled, checked)` on the
menu `hTrayMenu`; `GetMenuItemCount` gives the number of items. The tooltip is
not used. -/
def add_or_update_menu_item (ok : Nat → Bool) (hTrayMenu : HMENU) (menuId : Int)
    (title _tooltip : String) (disabled checked : Int) : HMENU :=
  let menuItemInfo : MENUITEMINFO :=
    { dwTypeData := title, dwItemData := toULONG_PTR menuId,
      fState := menuItemState disabled checked }
  let itemCount := hTrayMenu.length
  let (hTrayMenu, i) := scanMenu ok menuId menuItemInfo itemCount itemCount 0 hTrayMenu
  if i = itemCount then InsertMenuItem hTrayMenu menuItemInfo else hTrayMenu

/-- The item that a call of `add_or_update_menu_item` writes. -/
def newItem (menuId : Int) (title : String) (disabled checked : Int) : MENUITEMINFO :=
  { dwTypeData := title, dwItemData := toULONG_PTR menuId,
    fState := menuItemState disabled checked }

/-- The menu id that `GetMenuItemId` reads from an item. -/
def itemId (item : MENUITEMINFO) : Int := toInt item.dwItemData

/-- An item shows as disabled: the bits of `MFS_DISABLED` are set. -/
def isDisabled (item : MENUITEMINFO) : Prop := item.fState &&& MFS_DISABLED = MFS_DISABLED

/-- An item shows as checked: the bit `MFS_CHECKED` is set. -/
def isChecked (item : MENUITEMINFO) : Prop := item.fState &&& MFS_CHECKED = MFS_CHECKED

/-- The arguments of one call of `add_or_update_menu_item`. -/
structure Call where
  menuId : Int
  title : String
  tooltip : String
  disabled : Int
  checked : Int
  deriving DecidableEq

/-- One call of `add_or_update_menu_item` with the arguments `c`. -/
def upsert (ok : Nat → Bool) (hTrayMenu : HMENU) (c : Call) : HMENU :=
  add_or_update_menu_item ok hTrayMenu c.menuId c.title c.tooltip c.disabled c.checked

/-- A sequence of calls of `add_or_update_menu_item`, first to last. -/
def runCalls (ok : Nat → Bool) (calls : List Call) (hTrayMenu : HMENU) : HMENU :=
  calls.foldl (upsert ok) hTrayMenu

/-- Value of `WM_DESTROY` in the Windows SDK. -/
def WM_DESTROY : Nat := 2

/-- Value of `WM_MENUCOMMAND` in the Windows SDK. -/
def WM_MENUCOMMAND : Nat := 294

/-- Value of `WM_LBUTTONUP` in the Windows SDK. -/
def WM_LBUTTONUP : Nat := 514

/-- Value of `WM_RBUTTONUP` in the Windows SDK. -/
def WM_RBUTTONUP : Nat := 517

/-- Value of `WM_USER` in the Windows SDK. -/
def WM_USER : Nat := 1024

/-- Message `WM_SYSTRAY_MESSAGE`, defined as `WM_USER + 1`. -/
def WM_SYSTRAY_MESSAGE : Nat := WM_USER + 1

/-- What the window procedure and the message loop do that is visible outside
the menu: calls of the two host callbacks, retrieval of a message, and the
system calls made by `WndProc`. -/
inductive Effect where
  | systray_ready
  | systray_menu_item_selected (menu_id : Int)
  | GetMessage
  | PostQuitMessage
  | ShowMenu
  | DefWindowProc
  deriving DecidableEq

/-- Function `WndProc(hWnd, message, wParam, lParam)`: the effects of handling one
message, in order. The menu itself is not changed by any message. -/
def WndProc (ok : Nat → Bool) (hTrayMenu : HMENU) (message wParam lParam : Nat) : List Effect :=
  if message = WM_MENUCOMMAND then
    let menuId := GetMenuItemId ok hTrayMenu (toUINT wParam)
    if menuId ≠ -1 then [Effect.systray_menu_item_selected menuId] else []
  else if message = WM_DESTROY then [Effect.PostQuitMessage]
  else if message = WM_SYSTRAY_MESSAGE then
    if lParam = WM_RBUTTONUP then [Effect.ShowMenu]
    else if lParam = WM_LBUTTONUP then [Effect.ShowMenu]
    else [Effect.DefWindowProc]
  else [Effect.DefWindowProc]

/-- What happens to the menu from outside `WndProc`: a host thread calls
`add_or_update_menu_item`, or the message loop retrieves a message
(`ret` is the value of `GetMessage`). Each carries the outcome of
`GetMenuItemInfo` at that time. -/
inductive Input where
  | call (ok : Nat → Bool) (c : Call)
  | message (ok : Nat → Bool) (ret : Int) (message wParam lParam : Nat)

/-- The menu ids passed to `add_or_update_menu_item` by the calls among
`inputs`. -/
def passedIds : List Input → List Int
  | [] => []
  | Input.call _ c :: rest => c.menuId :: passedIds rest
  | Input.message .. :: rest => passedIds rest

/-- Every item of the menu carries as item data one of the `ids`. -/
def FromPassed (ids : List Int) (hTrayMenu : HMENU) : Prop :=
  ∀ item ∈ hTrayMenu, ∃ x ∈ ids, item.dwItemData = toULONG_PTR x

/-- One input applied to the menu outside the message loop: a call updates the
menu, a retrieved message is dispatched to `WndProc`. -/
def step (hTrayMenu : HMENU) : Input → HMENU × List Effect
  | Input.call ok c => (upsert ok hTrayMenu c, [])
  | Input.message ok _ message wParam lParam =>
    (hTrayMenu, WndProc ok hTrayMenu message wParam lParam)

/-- The menu after a sequence of inputs, and their effects in order. -/
def run : HMENU → List Input → HMENU × List Effect
  | hTrayMenu, [] => (hTrayMenu, [])
  | hTrayMenu, input :: rest =>
    let (hTrayMenu1, effects) := step hTrayMenu input
    let (hTrayMenu2, effects2) := run hTrayMenu1 rest
    (hTrayMenu2, effects ++ effects2)

/-- Outcome of the three start-up calls of `nativeLoop` whose failure it
checks: `CreateWindow` in `InitInstance`, `SetMenuInfo` in `createMenu`, and
`Shell_NotifyIcon(NIM_ADD)` in `addNotifyIcon`. -/
structure Startup where
  CreateWindow : Bool
  SetMenuInfo : Bool
  Shell_NotifyIcon : Bool
  deriving DecidableEq

/-- The `while (GetMessage(...))` loop of `nativeLoop`, fed with the inputs
that arrive while it runs. The status is `none` when the inputs end before
`GetMessage` has returned zero: the loop is then still waiting. -/
def messageLoop : HMENU → List Input → Option Int × List Effect
  | _, [] => (none, [])
  | hTrayMenu, Input.call ok c :: rest => messageLoop (upsert ok hTrayMenu c) rest
  | hTrayMenu, Input.message ok ret message wParam lParam :: rest =>
    if ret = 0 then (some EXIT_SUCCESS, [Effect.GetMessage])
    else
      let dispatched := WndProc ok hTrayMenu message wParam lParam
      let (status, effects) := messageLoop hTrayMenu rest
      (status, Effect.GetMessage :: dispatched ++ effects)

/-- Function `nativeLoop(systray_ready, _systray_menu_item_selected)`: the exit status
(`none` while the message loop is still waiting) and the effects in order. -/
def nativeLoop (env : Startup) (inputs : List Input) : Option Int × List Effect :=
  if !env.CreateWindow then (some EXIT_FAILURE, [])
  else if !env.SetMenuInfo || !env.Shell_NotifyIcon then (some EXIT_FAILURE, [])
  else
    let (status, effects) := messageLoop [] inputs
    (status, Effect.systray_ready :: effects)

end Windows

/-! ## Linux backend (`systray_linux.c`) -/

namespace Linux

open Systray

/-- The status of an application indicator. -/
inductive AppIndicatorStatus where
  | APP_INDICATOR_STATUS_PASSIVE
  | APP_INDICATOR_STATUS_ACTIVE
  | APP_INDICATOR_STATUS_ATTENTION
  deriving DecidableEq

/-- The properties of the `AppIndicator` object that the backend sets. -/
structure AppIndicator where
  status : AppIndicatorStatus
  icon_name : String
  attention_icon_name : String
  label : String
  deriving DecidableEq

/-- A GTK menu item widget: its label, whether it is sensitive, whether it is
shown, its check mark (`none` for a plain `GtkMenuItem`, which has none; only a
`GtkCheckMenuItem` has one), and the data of the handlers connected to its
`activate` signal, here the value stored behind the `int *id` of each. -/
structure GtkMenuItem where
  label : String
  sensitive : Bool
  visible : Bool
  active : Option Bool
  activate : List Int
  deriving DecidableEq

/-- Struct `MenuItemNode`: `menu_item` is the `GtkWidget*`, an index into the heap of
widgets. -/
structure MenuItemNode where
  menu_item : Nat
  menu_id : Int
  deriving DecidableEq

/-- Struct `MenuItemInfo`, the data of a deferred `do_add_or_update_menu_item`. -/
structure MenuItemInfo where
  menu_id : Int
  title : String
  tooltip : String
  disabled : Int
  checked : Int
  deriving DecidableEq

/-- A `GBytes`: the bytes and the size it reports. -/
structure GBytes where
  data : List Nat
  size : Nat
  deriving DecidableEq

/-- An idle source added by `g_idle_add(function, data)`. -/
inductive IdleSource where
  | do_set_icon (bytes : GBytes)
  | do_add_or_update_menu_item (mii : MenuItemInfo)
  | do_quit
  deriving DecidableEq

/-- The file-scope variables of `systray_linux.c` with the GTK objects they
point to, the idle sources waiting in the main loop, the file names passed to
`unlink`, and the flag that `gtk_main_quit` raises to end `gtk_main`. -/
structure State where
  global_app_indicator : AppIndicator
  global_tray_menu : List Nat
  global_menu_items : List MenuItemNode
  global_temp_icon_file_names : List String
  widgets : List GtkMenuItem
  idle : List IdleSource
  unlinked : List String
  main_quit : Bool
  deriving DecidableEq

/-- The state that `nativeLoop` sets up before it calls `systray_ready`: a new
indicator with empty icon name and active status, an empty menu, no temp
files. -/
def initial : State :=
  { global_app_indicator :=
      { status := AppIndicatorStatus.APP_INDICATOR_STATUS_ACTIVE, icon_name := "",
        attention_icon_name := "", label := "" }
    global_tray_menu := []
    global_menu_items := []
    global_temp_icon_file_names := []
    widgets := []
    idle := []
    unlinked := []
    main_quit := false }

/-- Outcome of the file calls of `do_set_icon`: the descriptor returned by
`mkstemp`, the file name it wrote into the template, and the result of
`write`. -/
structure FileResults where
  fd : Int
  temp_file_name : String
  written : Int
  deriving DecidableEq

/-- GLib call `g_idle_add(function, data)`: the source is added behind the pending
ones. -/
def g_idle_add (s : State) (source : IdleSource) : State :=
  { s with idle := s.idle ++ [source] }

/-- GTK call `gtk_main_quit()`: makes the innermost `gtk_main` return. No function of
`systray_linux.c` calls it. -/
def gtk_main_quit (s : State) : State :=
  { s with main_quit := true }

/-- A change applied to the widget behind the pointer `w`. -/
def modifyWidget (s : State) (w : Nat) (f : GtkMenuItem → GtkMenuItem) : State :=
  { s with widgets := s.widgets.modify f w }

/-- GTK call `gtk_menu_item_set_label(GTK_MENU_ITEM(w), label)`. -/
def gtk_menu_item_set_label (s : State) (w : Nat) (label : String) : State :=
  modifyWidget s w (fun item => { item with label := label })

/-- GTK call `gtk_widget_set_sensitive(w, sensitive)`. -/
def gtk_widget_set_sensitive (s : State) (w : Nat) (sensitive : Bool) : State :=
  modifyWidget s w (fun item => { item with sensitive := sensitive })

/-- The widgets after each of the `children` has been shown. -/
def showAll (widgets : List GtkMenuItem) (children : List Nat) : List GtkMenuItem :=
  children.foldl (fun ws w => ws.modify (fun item => { item with visible := true }) w) widgets

/-- GTK call `gtk_widget_show_all(global_tray_menu)`: every child of the menu is
shown. -/
def gtk_widget_show_all (s : State) : State :=
  { s with widgets := showAll s.widgets s.global_tray_menu }

/-- Function `do_set_icon(data)`, with the outcome `io` of its file calls. -/
def do_set_icon (s : State) (io : FileResults) (bytes : GBytes) : State :=
  if io.fd = -1 then s
  else
    let s := { s with global_temp_icon_file_names :=
                        s.global_temp_icon_file_names ++ [io.temp_file_name] }
    let size := bytes.size
    let written := io.written
    if toGsize written ≠ size then s
    else
      let s := { s with global_app_indicator :=
                          { s.global_app_indicator with icon_name := io.temp_file_name } }
      { s with global_app_indicator :=
                 { s.global_app_indicator with attention_icon_name := io.temp_file_name } }

/-- GTK call `gtk_menu_item_new_with_label(label)`: a plain menu item, sensitive, not
yet shown, without handlers. -/
def gtk_menu_item_new_with_label (label : String) : GtkMenuItem :=
  { label := label, sensitive := true, visible := false, active := none, activate := [] }

/-- GLib call `g_signal_connect_swapped(G_OBJECT(item), "activate",
G_CALLBACK(_systray_menu_item_selected), id)`, where `data` is the value
stored behind `id`. -/
def g_signal_connect_swapped (item : GtkMenuItem) (data : Int) : GtkMenuItem :=
  { item with activate := item.activate ++ [data] }

/-- The part of `do_add_or_update_menu_item` run when the loop has found no
node (`it == NULL`): a new menu item with the label, the handler with a copy of
the id, the item appended to the menu, and a new node at the head of
`global_menu_items`. The result is the state and the new node. -/
def addNewItem (s : State) (mii : MenuItemInfo) : State × MenuItemNode :=
  let menu_item := s.widgets.length
  let id := mii.menu_id
  let s : State := { s with widgets := s.widgets ++
    [g_signal_connect_swapped (gtk_menu_item_new_with_label mii.title) id] }
  let s : State := { s with global_tray_menu := s.global_tray_menu ++ [menu_item] }
  let new_item : MenuItemNode := { menu_id := mii.menu_id, menu_item := menu_item }
  let s : State := { s with global_menu_items := new_item :: s.global_menu_items }
  (s, new_item)

/-- Function `do_add_or_update_menu_item(data)`. -/
def do_add_or_update_menu_item (s : State) (mii : MenuItemInfo) : State :=
  let it := s.global_menu_items.find? (fun item => item.menu_id = mii.menu_id)
  let s : State := match it with
    | some item => gtk_menu_item_set_label s item.menu_item mii.title
    | none => s
  let (s, it) : State × MenuItemNode := match it with
    | none => addNewItem s mii
    | some item => (s, item)
  let menu_item := it.menu_item
  let s := gtk_widget_set_sensitive s menu_item (if mii.disabled = 1 then false else true)
  gtk_widget_show_all s

/-- Value of `INT_MAX`. -/
def INT_MAX : Nat := 2147483647

/-- Function `do_quit(data)`: the temp files are unlinked, up to the terminating `NULL`
of the array or `INT_MAX` entries, and the indicator is made passive. -/
def do_quit (s : State) : State :=
  let s := { s with unlinked := s.unlinked ++ s.global_temp_icon_file_names.take INT_MAX }
  { s with global_app_indicator :=
             { s.global_app_indicator with
               status := AppIndicatorStatus.APP_INDICATOR_STATUS_PASSIVE } }

/-- Function `setIcon(iconBytes, length)`. -/
def setIcon (s : State) (iconBytes : List Nat) (length : Int) : State :=
  let bytes : GBytes := { data := iconBytes, size := toGsize length }
  g_idle_add s (IdleSource.do_set_icon bytes)

/-- Function `setTitle(ctitle)`. -/
def setTitle (s : State) (ctitle : String) : State :=
  { s with global_app_indicator := { s.global_app_indicator with label := ctitle } }

/-- Function `setTooltip(ctooltip)`. -/
def setTooltip (s : State) (_ctooltip : String) : State := s

/-- Function `add_or_update_menu_item(menu_id, title, tooltip, disabled, checked)`. -/
def add_or_update_menu_item (s : State) (menu_id : Int) (title tooltip : String)
    (disabled checked : Int) : State :=
  let mii : MenuItemInfo :=
    { menu_id := menu_id, title := title, tooltip := tooltip, disabled := disabled,
      checked := checked }
  g_idle_add s (IdleSource.do_add_or_update_menu_item mii)

/-- Function `quit()`. -/
def quit (s : State) : State :=
  g_idle_add s IdleSource.do_quit

/-- One idle source run by the main loop. -/
def runSource (s : State) (io : FileResults) : IdleSource → State
  | IdleSource.do_set_icon bytes => do_set_icon s io bytes
  | IdleSource.do_add_or_update_menu_item mii => do_add_or_update_menu_item s mii
  | IdleSource.do_quit => do_quit s

/-- The main loop dispatches the oldest pending idle source; every source
function returns `FALSE`, so the source is removed. -/
def dispatchIdle (s : State) (io : FileResults) : State :=
  match s.idle with
  | [] => s
  | source :: rest => runSource { s with idle := rest } io source

/-- GTK emits `activate` on the widget `w`: each connected handler
`_systray_menu_item_selected(id)` calls `systray_menu_item_selected(*id)`.
The result lists the arguments of these calls. -/
def emitActivate (s : State) (w : Nat) : List Int :=
  match s.widgets[w]? with
  | none => []
  | some item => item.activate

/-- What can happen while `gtk_main` runs: a host thread calls one of the five
downward functions, the main loop dispatches an idle source, or the user
selects a menu item. -/
inductive Event where
  | setIcon (iconBytes : List Nat) (length : Int)
  | setTitle (ctitle : String)
  | setTooltip (ctooltip : String)
  | add_or_update_menu_item (menu_id : Int) (title tooltip : String) (disabled checked : Int)
  | quit
  | idle (io : FileResults)
  | activate (w : Nat)
  deriving DecidableEq

/-- One event: the next state and the arguments of the calls of
`systray_menu_item_selected` it causes. -/
def step (s : State) : Event → State × List Int
  | Event.setIcon iconBytes length => (setIcon s iconBytes length, [])
  | Event.setTitle ctitle => (setTitle s ctitle, [])
  | Event.setTooltip ctooltip => (setTooltip s ctooltip, [])
  | Event.add_or_update_menu_item menu_id title tooltip disabled checked =>
    (add_or_update_menu_item s menu_id title tooltip disabled checked, [])
  | Event.quit => (quit s, [])
  | Event.idle io => (dispatchIdle s io, [])
  | Event.activate w => (s, emitActivate s w)

/-- The outcome of running the main loop over some events: whether `gtk_main`
has returned, the state, and the arguments of the calls of
`systray_menu_item_selected` in order. -/
structure Outcome where
  returned : Bool
  state : State
  selected : List Int
  deriving DecidableEq

/-- GTK call `gtk_main()` over the events that arrive while it runs: it returns once
`gtk_main_quit` has been called, and is still running when the events end
before that. -/
def gtk_main : State → List Event → Outcome
  | s, [] => { returned := s.main_quit, state := s, selected := [] }
  | s, e :: rest =>
    if s.main_quit then { returned := true, state := s, selected := [] }
    else
      let (s1, selected) := step s e
      let out := gtk_main s1 rest
      { out with selected := selected ++ out.selected }

/-- Function `nativeLoop()`: set-up, `systray_ready()`, `gtk_main()`, and a `return;`
that gives no value. `returned` tells whether that `return` was reached; the
call of `systray_ready` is not recorded. -/
def nativeLoop (events : List Event) : Outcome :=
  gtk_main initial events

/-- The menu ids passed to `add_or_update_menu_item` by the calls among
`events`. -/
def passedIds : List Event → List Int
  | [] => []
  | Event.add_or_update_menu_item menu_id _ _ _ _ :: rest => menu_id :: passedIds rest
  | _ :: rest => passedIds rest

/-- The state after a sequence of events. -/
def run (s : State) (events : List Event) : State :=
  events.foldl (fun s e => (step s e).1) s

/-- The state after a sequence of `do_add_or_update_menu_item` tasks run from
the initial state. -/
def runTasks (tasks : List MenuItemInfo) : State :=
  tasks.foldl do_add_or_update_menu_item initial

/-- The menu ids in `global_menu_items`, head first. -/
def menuIds (s : State) : List Int := s.global_menu_items.map (fun n => n.menu_id)

/-- The GTK item that `global_menu_items` binds to a menu id: the item of the
first node with that id. -/
def boundItem (s : State) (menu_id : Int) : Option Nat :=
  (s.global_menu_items.find? (fun item => item.menu_id = menu_id)).map (fun n => n.menu_item)

/-- The widgets after `do_add_or_update_menu_item` has found a node whose item
is `w`: label and sensitivity of `w` set, then every child of the menu
shown. -/
def updatedWidgets (s : State) (mii : MenuItemInfo) (w : Nat) : List GtkMenuItem :=
  showAll
    (List.modify (fun item => { item with sensitive := if mii.disabled = 1 then false else true }) w
      (List.modify (fun item => { item with label := mii.title }) w s.widgets))
    s.global_tray_menu

/-- The widget that `do_add_or_update_menu_item` has created for a new menu id
when it is done: labelled, with the handler, its sensitivity set, and shown. -/
def createdWidget (mii : MenuItemInfo) : GtkMenuItem :=
  { label := mii.title, sensitive := if mii.disabled = 1 then false else true, visible := true,
    active := none, activate := [mii.menu_id] }

/-- The menu ids that the items of the menu report when selected, in menu
order. -/
def menuItemIds (s : State) : List Int :=
  s.global_tray_menu.flatMap (fun w => emitActivate s w)

/-- Consistency of the menu data: no menu id occurs twice in
`global_menu_items`, the nodes and the children of the menu point to existing
widgets, the children of the menu are the items of the nodes (the oldest node
is last in the list and first in the menu), the item of a node reports the id
of the node, every child of the menu is shown, and `gtk_main_quit` has not
been called. -/
structure WellFormed (s : State) : Prop where
  nodup : (menuIds s).Nodup
  node_lt : ∀ n ∈ s.global_menu_items, n.menu_item < s.widgets.length
  children : s.global_tray_menu = (s.global_menu_items.map (fun n => n.menu_item)).reverse
  handler_id : ∀ n ∈ s.global_menu_items, ∀ item, s.widgets[n.menu_item]? = some item →
    item.activate = [n.menu_id]
  child_lt : ∀ w ∈ s.global_tray_menu, w < s.widgets.length
  child_visible : ∀ w ∈ s.global_tray_menu, ∀ item, s.widgets[w]? = some item →
    item.visible = true
  no_quit : s.main_quit = false

/-- Every id that a selection can report, or that a pending task will attach
to a new item, is among `ids`. -/
structure Tracked (ids : List Int) (s : State) : Prop where
  handler : ∀ (p : Nat) (item : GtkMenuItem), s.widgets[p]? = some item →
    ∀ id ∈ item.activate, id ∈ ids
  queued : ∀ mii, IdleSource.do_add_or_update_menu_item mii ∈ s.idle → mii.menu_id ∈ ids

end Linux

/-! ## Theorems: integer conversions and the Windows backend -/

namespace Systray

theorem toInt_toULONG_PTR (x : Int) (h : InIntRange x) : toInt (toULONG_PTR x) = x := by
  unfold InIntRange at h
  unfold toInt toULONG_PTR
  split <;> omega

end Systray

namespace Windows
open Systray

theorem scanMenu_spec (ok : Nat → Bool) (menuId : Int) (info : MENUITEMINFO) (itemCount : Nat)
    (m : HMENU) (fuel i : Nat) (hfuel : i + fuel = itemCount) :
    (∃ j, i ≤ j ∧ j < itemCount ∧ Matches ok m menuId j ∧
        (∀ k, i ≤ k → k < j → ¬ Matches ok m menuId k) ∧
        scanMenu ok menuId info itemCount fuel i m = (SetMenuItemInfo m j info, j)) ∨
    ((∀ j, i ≤ j → j < itemCount → ¬ Matches ok m menuId j) ∧
        scanMenu ok menuId info itemCount fuel i m = (m, itemCount)) := by
  induction fuel generalizing i with
  | zero =>
    right
    refine ⟨fun j h1 h2 => by omega, ?_⟩
    simp only [scanMenu]
    have : i = itemCount := by omega
    rw [this]
  | succ fuel ih =>
    have hi : i < itemCount := by omega
    simp only [scanMenu, hi, if_true]
    by_cases h1 : -1 = GetMenuItemId ok m i
    · simp only [h1, if_true]
      rcases ih (i + 1) (by omega) with ⟨j, hj1, hj2, hj3, hj4, hj5⟩ | ⟨hno, heq⟩
      · left
        refine ⟨j, by omega, hj2, hj3, ?_, hj5⟩
        intro k hk1 hk2
        by_cases hk : k = i
        · subst hk; intro hm; exact hm.1 h1.symm
        · exact hj4 k (by omega) hk2
      · right
        refine ⟨?_, heq⟩
        intro j hj1 hj2
        by_cases hk : j = i
        · subst hk; intro hm; exact hm.1 h1.symm
        · exact hno j (by omega) hj2
    · simp only [h1, if_false]
      by_cases h2 : menuId = GetMenuItemId ok m i
      · simp only [← h2, if_true]
        left
        refine ⟨i, le_refl _, hi, ⟨fun h => h1 h.symm, h2⟩, fun k hk1 hk2 => by omega, ?_⟩
        rfl
      · simp only [h2, if_false]
        rcases ih (i + 1) (by omega) with ⟨j, hj1, hj2, hj3, hj4, hj5⟩ | ⟨hno, heq⟩
        · left
          refine ⟨j, by omega, hj2, hj3, ?_, hj5⟩
          intro k hk1 hk2
          by_cases hk : k = i
          · subst hk; intro hm; exact h2 hm.2
          · exact hj4 k (by omega) hk2
        · right
          refine ⟨?_, heq⟩
          intro j hj1 hj2
          by_cases hk : j = i
          · subst hk; intro hm; exact h2 hm.2
          · exact hno j (by omega) hj2


theorem add_spec (ok : Nat → Bool) (m : HMENU) (menuId : Int) (title tooltip : String)
    (disabled checked : Int) :
    (∃ j, j < m.length ∧ Matches ok m menuId j ∧ (∀ k, k < j → ¬ Matches ok m menuId k) ∧
        add_or_update_menu_item ok m menuId title tooltip disabled checked =
          m.set j (newItem menuId title disabled checked)) ∨
    ((∀ j, j < m.length → ¬ Matches ok m menuId j) ∧
        add_or_update_menu_item ok m menuId title tooltip disabled checked =
          m ++ [newItem menuId title disabled checked]) := by
  rcases scanMenu_spec ok menuId (newItem menuId title disabled checked) m.length m m.length 0
      (by omega) with ⟨j, _, hj2, hj3, hj4, hj5⟩ | ⟨hno, heq⟩
  · left
    refine ⟨j, hj2, hj3, fun k hk => hj4 k (Nat.zero_le _) hk, ?_⟩
    unfold add_or_update_menu_item
    simp only [newItem] at hj5
    simp only [hj5, newItem, SetMenuItemInfo]
    rw [if_neg (by omega)]
  · right
    refine ⟨fun j hj => hno j (Nat.zero_le _) hj, ?_⟩
    unfold add_or_update_menu_item
    simp only [newItem] at heq
    simp only [heq, newItem, InsertMenuItem, if_true]

theorem getMenuItemId_eq (ok : Nat → Bool) (m : HMENU) (j : Nat) (item : MENUITEMINFO)
    (hok : ok j = true) (hj : m[j]? = some item) :
    GetMenuItemId ok m j = itemId item := by
  simp [GetMenuItemId, GetMenuItemInfo, hok, hj, itemId]

theorem getMenuItemId_cases (ok : Nat → Bool) (m : HMENU) (j : Nat) :
    GetMenuItemId ok m j = -1 ∨ ∃ item, m[j]? = some item ∧ GetMenuItemId ok m j = itemId item := by
  unfold GetMenuItemId GetMenuItemInfo
  by_cases hok : ok j = true
  · simp only [hok, if_true]
    cases h : m[j]? with
    | none => left; rfl
    | some item => right; exact ⟨item, rfl, rfl⟩
  · simp only [hok]
    left; rfl


theorem isDisabled_newItem (menuId : Int) (title : String) (disabled checked : Int) :
    isDisabled (newItem menuId title disabled checked) ↔ disabled = 1 := by
  unfold isDisabled newItem menuItemState MFS_DISABLED MFS_CHECKED
  by_cases hd : disabled = 1 <;> by_cases hc : checked = 1 <;> simp [hd, hc]
  all_goals decide

theorem isChecked_newItem (menuId : Int) (title : String) (disabled checked : Int) :
    isChecked (newItem menuId title disabled checked) ↔ checked = 1 := by
  unfold isChecked newItem menuItemState MFS_DISABLED MFS_CHECKED
  by_cases hd : disabled = 1 <;> by_cases hc : checked = 1 <;> simp [hd, hc]
  all_goals decide

theorem itemId_newItem (menuId : Int) (title : String) (disabled checked : Int)
    (h : InIntRange menuId) : itemId (newItem menuId title disabled checked) = menuId := by
  simp [itemId, newItem, toInt_toULONG_PTR menuId h]

theorem upsert_nil (ok : Nat → Bool) (c : Call) :
    upsert ok [] c = [newItem c.menuId c.title c.disabled c.checked] := by
  rcases add_spec ok [] c.menuId c.title c.tooltip c.disabled c.checked with
    ⟨j, hj, _⟩ | ⟨_, h⟩
  · simp at hj
  · simpa [upsert] using h

theorem upsert_singleton (ok : Nat → Bool) (item : MENUITEMINFO) (c : Call)
    (hok : ok 0 = true) (hid : itemId item = c.menuId) (hne : c.menuId ≠ -1) :
    upsert ok [item] c = [newItem c.menuId c.title c.disabled c.checked] := by
  have hm : Matches ok [item] c.menuId 0 := by
    have := getMenuItemId_eq ok [item] 0 item hok rfl
    unfold Matches
    rw [this, hid]
    exact ⟨hne, rfl⟩
  rcases add_spec ok [item] c.menuId c.title c.tooltip c.disabled c.checked with
    ⟨j, hj, _, _, h⟩ | ⟨hno, _⟩
  · have hj0 : j = 0 := by simpa using hj
    subst hj0
    simpa [upsert] using h
  · exact absurd hm (hno 0 (by simp))

theorem runCalls_append (ok : Nat → Bool) (calls : List Call) (c : Call) (m : HMENU) :
    runCalls ok (calls ++ [c]) m = upsert ok (runCalls ok calls m) c := by
  simp [runCalls, List.foldl_append]

/-- C1 (amended): on the Windows backend, for every `int` menu id other than
`-1` and every non-empty sequence of `add_or_update_menu_item` calls that all
use that id, applied to the empty popup menu with `GetMenuItemInfo` succeeding
at every position, the menu afterwards holds exactly one item, the one written
by the last call; its item data is the menu id, its title is the title of the
last call, it is disabled exactly when the last call passed `disabled == 1` and
checked exactly when the last call passed `checked == 1`. -/
theorem same_id_calls_leave_one_item (ok : Nat → Bool) (menu_id : Int) (calls : List Call)
    (hok : ∀ i, ok i = true) (hrange : InIntRange menu_id) (hne : menu_id ≠ -1)
    (hcalls : calls ≠ []) (hall : ∀ c ∈ calls, c.menuId = menu_id) :
    runCalls ok calls [] =
      [newItem menu_id (calls.getLast hcalls).title (calls.getLast hcalls).disabled
        (calls.getLast hcalls).checked] ∧
    GetMenuItemId ok (runCalls ok calls []) 0 = menu_id ∧
    (runCalls ok calls []).map (fun item => item.dwTypeData) = [(calls.getLast hcalls).title] ∧
    (∀ item ∈ runCalls ok calls [],
      itemId item = menu_id ∧
      (isDisabled item ↔ (calls.getLast hcalls).disabled = 1) ∧
      (isChecked item ↔ (calls.getLast hcalls).checked = 1)) := by
  have hmain : runCalls ok calls [] =
      [newItem menu_id (calls.getLast hcalls).title (calls.getLast hcalls).disabled
        (calls.getLast hcalls).checked] := by
    induction calls using List.reverseRecOn with
    | nil => exact absurd rfl hcalls
    | append_singleton l c ih =>
      have hc : c.menuId = menu_id := hall c (by simp)
      rw [runCalls_append]
      simp only [List.getLast_append_singleton]
      rw [← hc]
      by_cases hl : l = []
      · subst hl
        simpa [runCalls] using upsert_nil ok c
      · rw [ih hl (fun c hc => hall c (by simp [hc]))]
        exact upsert_singleton ok _ c (hok 0)
          (by rw [itemId_newItem _ _ _ _ hrange, hc]) (by rw [hc]; exact hne)
  refine ⟨hmain, ?_, ?_, ?_⟩
  · rw [hmain, getMenuItemId_eq ok _ 0 (newItem menu_id (calls.getLast hcalls).title
      (calls.getLast hcalls).disabled (calls.getLast hcalls).checked) (hok 0) rfl]
    exact itemId_newItem _ _ _ _ hrange
  · rw [hmain]; rfl
  · intro item hitem
    rw [hmain] at hitem
    have : item = newItem menu_id (calls.getLast hcalls).title (calls.getLast hcalls).disabled
        (calls.getLast hcalls).checked := by simpa using hitem
    rw [this]
    exact ⟨itemId_newItem _ _ _ _ hrange, isDisabled_newItem _ _ _ _, isChecked_newItem _ _ _ _⟩

theorem same_id_calls_leave_one_item_witness :
    runCalls (fun _ => true) [⟨1, "Open", "", 0, 0⟩, ⟨1, "Open", "", 1, 0⟩] [] =
      [newItem 1 "Open" 1 0] :=
  (same_id_calls_leave_one_item (fun _ => true) 1
    [⟨1, "Open", "", 0, 0⟩, ⟨1, "Open", "", 1, 0⟩] (fun _ => rfl) (by decide) (by decide)
    (by simp) (by decide)).1

/-- C1 (counterexample): two calls with menu id `-1` on the empty menu, with
`GetMenuItemInfo` succeeding everywhere, leave two items in the menu, both with
item data `-1`: the second call does not find the first item, because the loop
skips every position whose id reads as `-1`. -/
theorem same_id_calls_minus_one_duplicates :
    InIntRange (-1) ∧
    runCalls (fun _ => true) [⟨-1, "Open", "", 0, 0⟩, ⟨-1, "Open", "", 1, 0⟩] [] =
      [⟨"Open", 18446744073709551615, 0⟩, ⟨"Open", 18446744073709551615, 3⟩] ∧
    (runCalls (fun _ => true) [⟨-1, "Open", "", 0, 0⟩, ⟨-1, "Open", "", 1, 0⟩] []).map itemId =
      [-1, -1] := by
  decide


theorem upsert_has_id (ok : Nat → Bool) (m : HMENU) (c : Call) :
    ∃ (p : Nat) (item : MENUITEMINFO), (upsert ok m c)[p]? = some item ∧ item.dwItemData = toULONG_PTR c.menuId := by
  rcases add_spec ok m c.menuId c.title c.tooltip c.disabled c.checked with
    ⟨j, hj, _, _, h⟩ | ⟨_, h⟩
  · refine ⟨j, newItem c.menuId c.title c.disabled c.checked, ?_, rfl⟩
    rw [upsert, h]
    simp [hj]
  · refine ⟨m.length, newItem c.menuId c.title c.disabled c.checked, ?_, rfl⟩
    rw [upsert, h]
    simp

theorem upsert_keeps_id (ok : Nat → Bool) (m : HMENU) (c : Call) (x : Int)
    (hx : InIntRange x)
    (h : ∃ (p : Nat) (item : MENUITEMINFO), m[p]? = some item ∧ item.dwItemData = toULONG_PTR x) :
    ∃ (p : Nat) (item : MENUITEMINFO), (upsert ok m c)[p]? = some item ∧ item.dwItemData = toULONG_PTR x := by
  obtain ⟨p, item, hp, hd⟩ := h
  rcases add_spec ok m c.menuId c.title c.tooltip c.disabled c.checked with
    ⟨j, hj, hm, _, h⟩ | ⟨_, h⟩
  · by_cases hjp : j = p
    · subst hjp
      refine ⟨j, newItem c.menuId c.title c.disabled c.checked, ?_, ?_⟩
      · rw [upsert, h]; simp [hj]
      · rcases getMenuItemId_cases ok m j with h1 | ⟨item2, h2, h3⟩
        · exact absurd h1 hm.1
        · rw [hp] at h2
          cases h2
          have : c.menuId = x := by
            rw [hm.2, h3, itemId, hd, toInt_toULONG_PTR x hx]
          simp [newItem, this]
    · refine ⟨p, item, ?_, hd⟩
      rw [upsert, h, List.getElem?_set_ne hjp]
      exact hp
  · refine ⟨p, item, ?_, hd⟩
    rw [upsert, h]
    have hlt : p < m.length := by
      rcases Nat.lt_or_ge p m.length with h1 | h1
      · exact h1
      · rw [List.getElem?_eq_none h1] at hp; cases hp
    rw [List.getElem?_append_left hlt]
    exact hp

theorem runCalls_has_id (ok : Nat → Bool) (calls : List Call) (c : Call) (hc : c ∈ calls)
    (hrange : InIntRange c.menuId) :
    ∃ (p : Nat) (item : MENUITEMINFO), (runCalls ok calls [])[p]? = some item ∧
      item.dwItemData = toULONG_PTR c.menuId := by
  induction calls using List.reverseRecOn with
  | nil => simp at hc
  | append_singleton l c2 ih =>
    rw [runCalls_append]
    rcases List.mem_append.mp hc with h1 | h1
    · exact upsert_keeps_id ok _ c2 c.menuId hrange (ih h1)
    · have : c = c2 := by simpa using h1
      subst this
      exact upsert_has_id ok _ c

theorem wndProc_menucommand (ok : Nat → Bool) (m : HMENU) (p lParam : Nat)
    (item : MENUITEMINFO) (x : Int) (hp : m[p]? = some item)
    (hd : item.dwItemData = toULONG_PTR x) (hx : InIntRange x) (hne : x ≠ -1)
    (hlt : p < 4294967296) (hok : ok p = true) :
    WndProc ok m WM_MENUCOMMAND p lParam = [Effect.systray_menu_item_selected x] := by
  have hu : toUINT p = p := by unfold toUINT; omega
  have hid : GetMenuItemId ok m p = x := by
    rw [getMenuItemId_eq ok m p item hok hp, itemId, hd, toInt_toULONG_PTR x hx]
  simp [WndProc, hu, hid, hne]

/-- C4 (amended): on the Windows backend, for every `int` menu id other than
`-1` that a call of `add_or_update_menu_item` has passed, the menu holds an item
with that id as item data, and a `WM_MENUCOMMAND` message whose `wParam` is the
position of such an item (a position below `2^32`) at which `GetMenuItemInfo`
succeeds makes `WndProc` invoke `systray_menu_item_selected` exactly once, with
that id. -/
theorem selection_reports_added_id (ok : Nat → Bool) (calls : List Call) (c : Call)
    (hc : c ∈ calls) (hrange : InIntRange c.menuId) (hne : c.menuId ≠ -1) :
    (∃ (p : Nat) (item : MENUITEMINFO), (runCalls ok calls [])[p]? = some item ∧
        item.dwItemData = toULONG_PTR c.menuId) ∧
    ∀ (ok2 : Nat → Bool) (p lParam : Nat) (item : MENUITEMINFO),
      (runCalls ok calls [])[p]? = some item → item.dwItemData = toULONG_PTR c.menuId →
      p < 4294967296 → ok2 p = true →
      WndProc ok2 (runCalls ok calls []) WM_MENUCOMMAND p lParam =
        [Effect.systray_menu_item_selected c.menuId] :=
  ⟨runCalls_has_id ok calls c hc hrange,
   fun ok2 p lParam item hp hd hlt hok =>
     wndProc_menucommand ok2 _ p lParam item c.menuId hp hd hrange hne hlt hok⟩

theorem selection_reports_added_id_witness :
    WndProc (fun _ => true) (runCalls (fun _ => true) [⟨2, "Quit", "", 0, 0⟩] [])
      WM_MENUCOMMAND 0 0 = [Effect.systray_menu_item_selected 2] :=
  (selection_reports_added_id (fun _ => true) [⟨2, "Quit", "", 0, 0⟩] ⟨2, "Quit", "", 0, 0⟩
    (by simp) (by decide) (by decide)).2 (fun _ => true) 0 0 ⟨"Quit", 2, 0⟩
    (by decide) (by decide) (by decide) rfl

/-- C4 (counterexample): after `add_or_update_menu_item(-1, ...)` has added an
item, a `WM_MENUCOMMAND` at its position invokes no callback, since `WndProc`
takes the id `-1` for a failed lookup; and an item with id `2` is not reported
either when `GetMenuItemInfo` fails at its position. -/
theorem selection_of_minus_one_not_reported :
    runCalls (fun _ => true) [⟨-1, "Quit", "", 0, 0⟩] [] =
      [⟨"Quit", toULONG_PTR (-1), 0⟩] ∧
    WndProc (fun _ => true) (runCalls (fun _ => true) [⟨-1, "Quit", "", 0, 0⟩] [])
      WM_MENUCOMMAND 0 0 = [] ∧
    WndProc (fun _ => false) (runCalls (fun _ => true) [⟨2, "Quit", "", 0, 0⟩] [])
      WM_MENUCOMMAND 0 0 = [] := by
  decide


theorem matches_item (ok : Nat → Bool) (m : HMENU) (menuId : Int) (j : Nat)
    (h : Matches ok m menuId j) : ∃ item, m[j]? = some item ∧ itemId item = menuId := by
  rcases getMenuItemId_cases ok m j with h1 | ⟨item, h2, h3⟩
  · exact absurd h1 h.1
  · exact ⟨item, h2, by rw [← h3, ← h.2]⟩

theorem fromPassed_upsert (ok : Nat → Bool) (ids : List Int) (m : HMENU) (c : Call)
    (h : FromPassed ids m) (hc : c.menuId ∈ ids) : FromPassed ids (upsert ok m c) := by
  have hnew : ∃ x ∈ ids, (newItem c.menuId c.title c.disabled c.checked).dwItemData =
      toULONG_PTR x := ⟨c.menuId, hc, rfl⟩
  intro item hitem
  rcases add_spec ok m c.menuId c.title c.tooltip c.disabled c.checked with
    ⟨j, _, _, _, heq⟩ | ⟨_, heq⟩
  · rw [upsert, heq] at hitem
    rcases List.mem_or_eq_of_mem_set hitem with h1 | h1
    · exact h item h1
    · rw [h1]; exact hnew
  · rw [upsert, heq] at hitem
    rcases List.mem_append.mp hitem with h1 | h1
    · exact h item h1
    · have : item = newItem c.menuId c.title c.disabled c.checked := by simpa using h1
      rw [this]; exact hnew

theorem fromPassed_mono (ids ids2 : List Int) (m : HMENU) (hsub : ∀ x ∈ ids, x ∈ ids2)
    (h : FromPassed ids m) : FromPassed ids2 m := by
  intro item hitem
  obtain ⟨x, hx, hd⟩ := h item hitem
  exact ⟨x, hsub x hx, hd⟩

theorem fromPassed_step (ids : List Int) (m : HMENU) (input : Input) (h : FromPassed ids m) :
    FromPassed (ids ++ passedIds [input]) (step m input).1 := by
  cases input with
  | call ok c =>
    exact fromPassed_upsert ok _ m c
      (fromPassed_mono ids _ m (fun x hx => List.mem_append_left _ hx) h) (by simp [passedIds])
  | message ok ret message wParam lParam =>
    exact fromPassed_mono ids _ m (fun x hx => List.mem_append_left _ hx) h

theorem passedIds_cons (input : Input) (rest : List Input) :
    passedIds (input :: rest) = passedIds [input] ++ passedIds rest := by
  cases input <;> simp [passedIds]

theorem fromPassed_run (inputs : List Input) (ids : List Int) (m : HMENU)
    (h : FromPassed ids m) : FromPassed (ids ++ passedIds inputs) (run m inputs).1 := by
  induction inputs generalizing ids m with
  | nil => simpa [run, passedIds] using h
  | cons input rest ih =>
    have h1 := ih (ids ++ passedIds [input]) (step m input).1 (fromPassed_step ids m input h)
    rw [passedIds_cons, ← List.append_assoc]
    simpa [run] using h1

theorem selected_of_fromPassed (ids : List Int) (m : HMENU) (input : Input)
    (h : FromPassed ids m) (hrange : ∀ x ∈ ids, InIntRange x) (id : Int)
    (hid : Effect.systray_menu_item_selected id ∈ (step m input).2) : id ∈ ids := by
  cases input with
  | call ok c => simp [step] at hid
  | message ok ret message wParam lParam =>
    simp only [step, WndProc] at hid
    split at hid
    · split at hid
      · simp only [List.mem_singleton, Effect.systray_menu_item_selected.injEq] at hid
        rename_i hne
        rcases getMenuItemId_cases ok m (toUINT wParam) with h1 | ⟨item, h2, h3⟩
        · exact absurd h1 hne
        · obtain ⟨x, hx, hd⟩ := h item (List.getElem?_mem h2)
          rw [hid, h3, itemId, hd, toInt_toULONG_PTR x (hrange x hx)]
          exact hx
      · simp at hid
    · split at hid
      · simp at hid
      · split at hid
        · split at hid
          · simp at hid
          · split at hid <;> simp at hid
        · simp at hid

theorem upsert_absent (ok : Nat → Bool) (m : HMENU) (c : Call)
    (h : ∀ item ∈ m, itemId item ≠ c.menuId) :
    upsert ok m c = m ++ [newItem c.menuId c.title c.disabled c.checked] := by
  rcases add_spec ok m c.menuId c.title c.tooltip c.disabled c.checked with
    ⟨j, _, hm, _, _⟩ | ⟨_, heq⟩
  · obtain ⟨item, h1, h2⟩ := matches_item ok m c.menuId j hm
    exact absurd h2 (h item (List.getElem?_mem h1))
  · exact heq

theorem upsert_ids_kept (ok : Nat → Bool) (m : HMENU) (c : Call) (hrange : InIntRange c.menuId) :
    m.map itemId <+: (upsert ok m c).map itemId := by
  rcases add_spec ok m c.menuId c.title c.tooltip c.disabled c.checked with
    ⟨j, _, hm, _, heq⟩ | ⟨_, heq⟩
  · obtain ⟨item, h1, h2⟩ := matches_item ok m c.menuId j hm
    have : (upsert ok m c).map itemId = m.map itemId := by
      rw [upsert, heq]
      apply List.ext_getElem?
      intro p
      simp only [List.getElem?_map]
      by_cases hjp : j = p
      · subst hjp
        rw [List.getElem?_set_self (by assumption), h1]
        simp [itemId_newItem _ _ _ _ hrange, h2]
      · rw [List.getElem?_set_ne hjp]
    rw [this]
  · rw [upsert, heq, List.map_append]
    exact List.prefix_append _ _

theorem upsert_other_items (ok : Nat → Bool) (m : HMENU) (c : Call) (p : Nat)
    (item : MENUITEMINFO) (hp : m[p]? = some item) (hne : itemId item ≠ c.menuId) :
    (upsert ok m c)[p]? = some item := by
  rcases add_spec ok m c.menuId c.title c.tooltip c.disabled c.checked with
    ⟨j, _, hm, _, heq⟩ | ⟨_, heq⟩
  · obtain ⟨item2, h1, h2⟩ := matches_item ok m c.menuId j hm
    have hjp : j ≠ p := by
      intro hjp
      subst hjp
      rw [hp] at h1
      cases h1
      exact hne h2
    rw [upsert, heq, List.getElem?_set_ne hjp]
    exact hp
  · have hlt : p < m.length := by
      rcases Nat.lt_or_ge p m.length with h1 | h1
      · exact h1
      · rw [List.getElem?_eq_none h1] at hp; cases hp
    rw [upsert, heq, List.getElem?_append_left hlt]
    exact hp


theorem ready_not_in_messageLoop (inputs : List Input) (m : HMENU) :
    Effect.systray_ready ∉ (messageLoop m inputs).2 := by
  induction inputs generalizing m with
  | nil => simp [messageLoop]
  | cons input rest ih =>
    cases input with
    | call ok c => simpa [messageLoop] using ih (upsert ok m c)
    | message ok ret message wParam lParam =>
      simp only [messageLoop]
      split
      · simp
      · have hw : Effect.systray_ready ∉ WndProc ok m message wParam lParam := by
          unfold WndProc
          repeat' split
          all_goals simp
        simp [hw, ih m]

/-- C7: on the Windows backend, `nativeLoop` returns `EXIT_FAILURE` without
invoking `systray_ready` (or anything else that is recorded) whenever window
creation, popup menu set-up or adding the notification icon fails; when all
three succeed, `systray_ready` is the first thing it does, before any message
is retrieved, and it is invoked exactly once. -/
theorem nativeLoop_startup (env : Startup) (inputs : List Input) :
    ((env.CreateWindow = false ∨ env.SetMenuInfo = false ∨ env.Shell_NotifyIcon = false) →
      nativeLoop env inputs = (some EXIT_FAILURE, [])) ∧
    ((env.CreateWindow = true ∧ env.SetMenuInfo = true ∧ env.Shell_NotifyIcon = true) →
      (nativeLoop env inputs).2.head? = some Effect.systray_ready ∧
      (nativeLoop env inputs).2.count Effect.systray_ready = 1 ∧
      (nativeLoop env inputs).2.tail = (messageLoop [] inputs).2) := by
  constructor
  · intro h
    unfold nativeLoop
    rcases h with h | h | h
    · simp [h]
    · cases hc : env.CreateWindow <;> simp [h]
    · cases hc : env.CreateWindow <;> cases hs : env.SetMenuInfo <;> simp [h]
  · rintro ⟨h1, h2, h3⟩
    have heq : (nativeLoop env inputs).2 = Effect.systray_ready :: (messageLoop [] inputs).2 := by
      simp [nativeLoop, h1, h2, h3]
    rw [heq]
    refine ⟨rfl, ?_, rfl⟩
    rw [List.count_cons_self, List.count_eq_zero_of_not_mem (ready_not_in_messageLoop inputs [])]

theorem nativeLoop_startup_witness :
    nativeLoop ⟨true, false, true⟩ [Input.message (fun _ => true) 0 0 0 0] =
      (some EXIT_FAILURE, []) ∧
    (nativeLoop ⟨true, true, true⟩ [Input.message (fun _ => true) 0 0 0 0]).2.count
      Effect.systray_ready = 1 :=
  ⟨(nativeLoop_startup ⟨true, false, true⟩ [Input.message (fun _ => true) 0 0 0 0]).1
      (Or.inr (Or.inl rfl)),
   ((nativeLoop_startup ⟨true, true, true⟩ [Input.message (fun _ => true) 0 0 0 0]).2
      ⟨rfl, rfl, rfl⟩).2.1⟩

end Windows

/-! ## Theorems: the Linux backend, and both backends together -/

namespace Linux
open Systray

theorem getElem?_showAll (children : List Nat) (widgets : List GtkMenuItem) (p : Nat) :
    (showAll widgets children)[p]? =
      (widgets[p]?).map (fun item => if p ∈ children then { item with visible := true } else item) := by
  induction children generalizing widgets with
  | nil => simp [showAll]
  | cons w rest ih =>
    have hstep : showAll widgets (w :: rest) =
        showAll (widgets.modify (fun item => { item with visible := true }) w) rest := rfl
    rw [hstep, ih, List.getElem?_modify]
    cases h : widgets[p]? with
    | none => simp
    | some item =>
      by_cases hw : w = p
      · subst hw; simp
      · have : (p = w) = False := by simp; exact fun h => hw h.symm
        simp [hw, List.mem_cons, this]

theorem length_showAll (children : List Nat) (widgets : List GtkMenuItem) :
    (showAll widgets children).length = widgets.length := by
  induction children generalizing widgets with
  | nil => simp [showAll]
  | cons w rest ih =>
    have hstep : showAll widgets (w :: rest) =
        showAll (widgets.modify (fun item => { item with visible := true }) w) rest := rfl
    rw [hstep, ih, List.length_modify]

theorem do_add_present (s : State) (mii : MenuItemInfo) (node : MenuItemNode)
    (h : s.global_menu_items.find? (fun item => item.menu_id = mii.menu_id) = some node) :
    do_add_or_update_menu_item s mii =
      { s with widgets := updatedWidgets s mii node.menu_item } := by
  simp only [do_add_or_update_menu_item, h, gtk_menu_item_set_label, gtk_widget_set_sensitive,
    gtk_widget_show_all, modifyWidget, updatedWidgets]

theorem do_add_absent_raw (s : State) (mii : MenuItemInfo)
    (h : s.global_menu_items.find? (fun item => item.menu_id = mii.menu_id) = none) :
    do_add_or_update_menu_item s mii =
      { s with
        widgets := showAll
          (List.modify (fun item => { item with sensitive := if mii.disabled = 1 then false else true })
            s.widgets.length
            (s.widgets ++ [g_signal_connect_swapped (gtk_menu_item_new_with_label mii.title)
              mii.menu_id]))
          (s.global_tray_menu ++ [s.widgets.length])
        global_tray_menu := s.global_tray_menu ++ [s.widgets.length]
        global_menu_items :=
          { menu_id := mii.menu_id, menu_item := s.widgets.length } :: s.global_menu_items } := by
  simp only [do_add_or_update_menu_item, h, addNewItem, gtk_widget_set_sensitive,
    gtk_widget_show_all, modifyWidget]

theorem do_add_absent (s : State) (mii : MenuItemInfo) (hwf : WellFormed s)
    (h : s.global_menu_items.find? (fun item => item.menu_id = mii.menu_id) = none) :
    do_add_or_update_menu_item s mii =
      { s with
        widgets := s.widgets ++ [createdWidget mii]
        global_tray_menu := s.global_tray_menu ++ [s.widgets.length]
        global_menu_items :=
          { menu_id := mii.menu_id, menu_item := s.widgets.length } :: s.global_menu_items } := by
  rw [do_add_absent_raw s mii h]
  have hw : showAll
      (List.modify (fun item => { item with sensitive := if mii.disabled = 1 then false else true })
        s.widgets.length
        (s.widgets ++ [g_signal_connect_swapped (gtk_menu_item_new_with_label mii.title)
          mii.menu_id]))
      (s.global_tray_menu ++ [s.widgets.length]) = s.widgets ++ [createdWidget mii] := ?_
  · rw [hw]
  apply List.ext_getElem?
  intro p
  rw [getElem?_showAll, List.getElem?_modify]
  rcases Nat.lt_trichotomy p s.widgets.length with hp | hp | hp
  · rw [List.getElem?_append_left hp, List.getElem?_append_left hp]
    have hne : ¬ s.widgets.length = p := by omega
    cases hg : s.widgets[p]? with
    | none => simp
    | some item =>
      simp only [Option.map_eq_map, Option.map_some', hne, if_false, List.mem_append,
        List.mem_singleton]
      split
      · rename_i hmem
        rcases hmem with hmem | hmem
        · have := hwf.child_visible p hmem item hg
          cases item
          simp_all
        · omega
      · rfl
  · subst hp
    simp [createdWidget, g_signal_connect_swapped, gtk_menu_item_new_with_label]
  · rw [List.getElem?_eq_none (by simp; omega), List.getElem?_eq_none (by simp; omega)]
    simp


theorem find?_none_not_mem (s : State) (menu_id : Int)
    (h : s.global_menu_items.find? (fun item => item.menu_id = menu_id) = none) :
    menu_id ∉ menuIds s := by
  intro hmem
  unfold menuIds at hmem
  obtain ⟨n, hn, hid⟩ := List.mem_map.mp hmem
  have := List.find?_eq_none.mp h n hn
  simp [hid] at this

theorem find?_some_mem (s : State) (menu_id : Int) (node : MenuItemNode)
    (h : s.global_menu_items.find? (fun item => item.menu_id = menu_id) = some node) :
    node ∈ s.global_menu_items ∧ node.menu_id = menu_id := by
  refine ⟨List.mem_of_find?_eq_some h, ?_⟩
  have := List.find?_some h
  simpa using this

theorem mem_find?_some (s : State) (menu_id : Int) (h : menu_id ∈ menuIds s) :
    ∃ node, s.global_menu_items.find? (fun item => item.menu_id = menu_id) = some node := by
  cases hf : s.global_menu_items.find? (fun item => item.menu_id = menu_id) with
  | none => exact absurd h (find?_none_not_mem s menu_id hf)
  | some node => exact ⟨node, rfl⟩

theorem length_updatedWidgets (s : State) (mii : MenuItemInfo) (w : Nat) :
    (updatedWidgets s mii w).length = s.widgets.length := by
  simp [updatedWidgets, length_showAll]

theorem getElem?_updatedWidgets (s : State) (mii : MenuItemInfo) (w p : Nat) :
    ∃ f : GtkMenuItem → GtkMenuItem,
      (updatedWidgets s mii w)[p]? = (s.widgets[p]?).map f ∧
      (∀ item, (f item).activate = item.activate ∧ (f item).active = item.active) ∧
      (p ∈ s.global_tray_menu → ∀ item, (f item).visible = true) := by
  unfold updatedWidgets
  rw [getElem?_showAll, List.getElem?_modify, List.getElem?_modify]
  refine ⟨fun item =>
    (fun item : GtkMenuItem => if p ∈ s.global_tray_menu then { item with visible := true } else item)
      ((fun a : GtkMenuItem => if w = p then
          { a with sensitive := if mii.disabled = 1 then false else true } else a)
        ((fun a : GtkMenuItem => if w = p then { a with label := mii.title } else a) item)),
    ?_, ?_, ?_⟩
  · cases s.widgets[p]? <;> simp
  · intro item
    by_cases h1 : p ∈ s.global_tray_menu <;> by_cases h2 : w = p <;> simp [h1, h2]
  · intro hp item
    simp [hp]

theorem wellFormed_initial : WellFormed initial := by
  constructor <;> simp [initial, menuIds]

theorem wellFormed_congr (s t : State) (h : WellFormed s)
    (h1 : t.global_menu_items = s.global_menu_items) (h2 : t.widgets = s.widgets)
    (h3 : t.global_tray_menu = s.global_tray_menu) (h4 : t.main_quit = s.main_quit) :
    WellFormed t := by
  constructor
  · unfold menuIds; rw [h1]; exact h.nodup
  · rw [h1, h2]; exact h.node_lt
  · rw [h1, h3]; exact h.children
  · rw [h1, h2]; exact h.handler_id
  · rw [h3, h2]; exact h.child_lt
  · rw [h3, h2]; exact h.child_visible
  · rw [h4]; exact h.no_quit

theorem wellFormed_do_add (s : State) (mii : MenuItemInfo) (h : WellFormed s) :
    WellFormed (do_add_or_update_menu_item s mii) := by
  cases hf : s.global_menu_items.find? (fun item => item.menu_id = mii.menu_id) with
  | some node =>
    rw [do_add_present s mii node hf]
    constructor
    · exact h.nodup
    · intro n hn
      simp only [length_updatedWidgets]
      exact h.node_lt n hn
    · exact h.children
    · intro n hn item hitem
      obtain ⟨f, hf1, hf2, _⟩ := getElem?_updatedWidgets s mii node.menu_item n.menu_item
      simp only at hitem hn
      rw [hf1] at hitem
      cases hg : s.widgets[n.menu_item]? with
      | none => rw [hg] at hitem; simp at hitem
      | some old =>
        rw [hg] at hitem
        simp at hitem
        rw [← hitem, (hf2 old).1]
        exact h.handler_id n hn old hg
    · intro w hw
      simp only [length_updatedWidgets]
      exact h.child_lt w hw
    · intro w hw item hitem
      obtain ⟨f, hf1, _, hf3⟩ := getElem?_updatedWidgets s mii node.menu_item w
      simp only at hitem
      rw [hf1] at hitem
      cases hg : s.widgets[w]? with
      | none => rw [hg] at hitem; simp at hitem
      | some old =>
        rw [hg] at hitem
        simp at hitem
        rw [← hitem]
        exact hf3 hw old
    · exact h.no_quit
  | none =>
    rw [do_add_absent s mii h hf]
    constructor
    · have hnot := find?_none_not_mem s mii.menu_id hf
      have hnd := h.nodup
      unfold menuIds at hnot hnd ⊢
      simp only [List.map_cons, List.nodup_cons]
      exact ⟨hnot, hnd⟩
    · intro n hn
      simp only [List.mem_cons] at hn
      simp only [List.length_append, List.length_singleton]
      rcases hn with hn | hn
      · subst hn; simp
      · have := h.node_lt n hn; omega
    · simp only [List.map_cons, List.reverse_cons]
      rw [h.children]
    · intro n hn item hitem
      simp only [List.mem_cons] at hn
      simp only at hitem
      rcases hn with hn | hn
      · subst hn
        simp at hitem
        rw [← hitem]
        rfl
      · have hlt := h.node_lt n hn
        rw [List.getElem?_append_left hlt] at hitem
        exact h.handler_id n hn item hitem
    · intro w hw
      simp only [List.mem_append, List.mem_singleton] at hw
      simp only [List.length_append, List.length_singleton]
      rcases hw with hw | hw
      · have := h.child_lt w hw; omega
      · omega
    · intro w hw item hitem
      simp only [List.mem_append, List.mem_singleton] at hw
      simp only at hitem
      rcases hw with hw | hw
      · have hlt := h.child_lt w hw
        rw [List.getElem?_append_left hlt] at hitem
        exact h.child_visible w hw item hitem
      · subst hw
        simp at hitem
        rw [← hitem]
        rfl
    · exact h.no_quit

theorem wellFormed_runSource (s : State) (io : FileResults) (source : IdleSource)
    (h : WellFormed s) : WellFormed (runSource s io source) := by
  cases source with
  | do_set_icon bytes =>
    simp only [runSource, do_set_icon]
    split
    · exact h
    · split
      · exact wellFormed_congr _ _ h rfl rfl rfl rfl
      · exact wellFormed_congr _ _ h rfl rfl rfl rfl
  | do_add_or_update_menu_item mii => exact wellFormed_do_add s mii h
  | do_quit => exact wellFormed_congr _ _ h rfl rfl rfl rfl

theorem wellFormed_dispatchIdle (s : State) (io : FileResults) (h : WellFormed s) :
    WellFormed (dispatchIdle s io) := by
  unfold dispatchIdle
  split
  · exact h
  · exact wellFormed_runSource _ io _ (wellFormed_congr _ _ h rfl rfl rfl rfl)

theorem wellFormed_step (s : State) (e : Event) (h : WellFormed s) :
    WellFormed (step s e).1 := by
  cases e with
  | idle io => exact wellFormed_dispatchIdle s io h
  | activate w => exact h
  | setIcon iconBytes length => exact wellFormed_congr _ _ h rfl rfl rfl rfl
  | setTitle ctitle => exact wellFormed_congr _ _ h rfl rfl rfl rfl
  | setTooltip ctooltip => exact h
  | add_or_update_menu_item menu_id title tooltip disabled checked =>
    exact wellFormed_congr _ _ h rfl rfl rfl rfl
  | quit => exact wellFormed_congr _ _ h rfl rfl rfl rfl

theorem run_append (s : State) (events : List Event) (e : Event) :
    run s (events ++ [e]) = (step (run s events) e).1 := by
  simp [run, List.foldl_append]

theorem wellFormed_run (events : List Event) : WellFormed (run initial events) := by
  induction events using List.reverseRecOn with
  | nil => exact wellFormed_initial
  | append_singleton l e ih => rw [run_append]; exact wellFormed_step _ e ih

theorem wellFormed_runTasks (tasks : List MenuItemInfo) : WellFormed (runTasks tasks) := by
  induction tasks using List.reverseRecOn with
  | nil => exact wellFormed_initial
  | append_singleton l t ih =>
    have : runTasks (l ++ [t]) = do_add_or_update_menu_item (runTasks l) t := by
      simp [runTasks, List.foldl_append]
    rw [this]
    exact wellFormed_do_add _ t ih


theorem flatMap_emitActivate (s : State) (nodes : List MenuItemNode)
    (hlt : ∀ n ∈ nodes, n.menu_item < s.widgets.length)
    (hid : ∀ n ∈ nodes, ∀ item, s.widgets[n.menu_item]? = some item →
      item.activate = [n.menu_id]) :
    (nodes.map (fun n => n.menu_item)).flatMap (fun w => emitActivate s w) =
      nodes.map (fun n => n.menu_id) := by
  induction nodes with
  | nil => rfl
  | cons n rest ih =>
    have hn : emitActivate s n.menu_item = [n.menu_id] := by
      have h1 := hlt n (by simp)
      unfold emitActivate
      rw [List.getElem?_eq_getElem h1]
      exact hid n (by simp) _ (List.getElem?_eq_getElem h1)
    simp only [List.map_cons, List.flatMap_cons, hn, List.singleton_append]
    rw [ih (fun m hm => hlt m (by simp [hm])) (fun m hm => hid m (by simp [hm]))]

theorem menuItemIds_eq (s : State) (h : WellFormed s) :
    menuItemIds s = (menuIds s).reverse := by
  unfold menuItemIds menuIds
  rw [h.children, ← List.map_reverse, ← List.map_reverse]
  apply flatMap_emitActivate
  · intro n hn; exact h.node_lt n (List.mem_reverse.mp hn)
  · intro n hn; exact h.handler_id n (List.mem_reverse.mp hn)

theorem do_add_present_fields (s : State) (mii : MenuItemInfo) (h : mii.menu_id ∈ menuIds s) :
    (do_add_or_update_menu_item s mii).global_menu_items = s.global_menu_items ∧
    (do_add_or_update_menu_item s mii).global_tray_menu = s.global_tray_menu ∧
    (do_add_or_update_menu_item s mii).widgets.length = s.widgets.length := by
  obtain ⟨node, hnode⟩ := mem_find?_some s mii.menu_id h
  rw [do_add_present s mii node hnode]
  exact ⟨rfl, rfl, length_updatedWidgets s mii node.menu_item⟩

/-- C2: on the Linux backend, after any sequence of
`do_add_or_update_menu_item` tasks run from the initial state, no two nodes of
`global_menu_items` have the same menu id; a further task whose id is in the
list leaves the list and the children of the menu as they are, creates no
widget and keeps the id bound to the same GTK item; a further task whose id is
not in the list puts exactly one new node for the id at the head of the list,
creates exactly one widget and appends it to the menu. -/
theorem menu_ids_stay_unique (tasks : List MenuItemInfo) (mii : MenuItemInfo) :
    (menuIds (runTasks tasks)).Nodup ∧
    (mii.menu_id ∈ menuIds (runTasks tasks) →
      (do_add_or_update_menu_item (runTasks tasks) mii).global_menu_items =
        (runTasks tasks).global_menu_items ∧
      (do_add_or_update_menu_item (runTasks tasks) mii).global_tray_menu =
        (runTasks tasks).global_tray_menu ∧
      (do_add_or_update_menu_item (runTasks tasks) mii).widgets.length =
        (runTasks tasks).widgets.length ∧
      boundItem (do_add_or_update_menu_item (runTasks tasks) mii) mii.menu_id =
        boundItem (runTasks tasks) mii.menu_id) ∧
    (mii.menu_id ∉ menuIds (runTasks tasks) →
      (do_add_or_update_menu_item (runTasks tasks) mii).global_menu_items =
        { menu_item := (runTasks tasks).widgets.length, menu_id := mii.menu_id } ::
          (runTasks tasks).global_menu_items ∧
      (do_add_or_update_menu_item (runTasks tasks) mii).global_tray_menu =
        (runTasks tasks).global_tray_menu ++ [(runTasks tasks).widgets.length] ∧
      (do_add_or_update_menu_item (runTasks tasks) mii).widgets.length =
        (runTasks tasks).widgets.length + 1) := by
  have hwf := wellFormed_runTasks tasks
  refine ⟨hwf.nodup, ?_, ?_⟩
  · intro hmem
    obtain ⟨h1, h2, h3⟩ := do_add_present_fields _ mii hmem
    refine ⟨h1, h2, h3, ?_⟩
    unfold boundItem
    rw [h1]
  · intro hnot
    have hf : (runTasks tasks).global_menu_items.find?
        (fun item => item.menu_id = mii.menu_id) = none := by
      cases hf : (runTasks tasks).global_menu_items.find?
          (fun item => item.menu_id = mii.menu_id) with
      | none => rfl
      | some node =>
        have := find?_some_mem _ _ node hf
        exact absurd (List.mem_map.mpr ⟨node, this.1, this.2⟩) hnot
    rw [do_add_absent _ mii hwf hf]
    simp

theorem menu_ids_stay_unique_witness :
    (do_add_or_update_menu_item (runTasks [⟨1, "Open", "", 0, 0⟩]) ⟨1, "Open", "", 1, 0⟩).global_menu_items =
      (runTasks [⟨1, "Open", "", 0, 0⟩]).global_menu_items ∧
    (do_add_or_update_menu_item (runTasks [⟨1, "Open", "", 0, 0⟩]) ⟨2, "Quit", "", 0, 0⟩).global_menu_items =
      [⟨1, 2⟩, ⟨0, 1⟩] :=
  ⟨((menu_ids_stay_unique [⟨1, "Open", "", 0, 0⟩] ⟨1, "Open", "", 1, 0⟩).2.1 (by decide)).1,
   ((menu_ids_stay_unique [⟨1, "Open", "", 0, 0⟩] ⟨2, "Quit", "", 0, 0⟩).2.2 (by decide)).1⟩


theorem tracked_mono (ids ids2 : List Int) (s : State) (hsub : ∀ x ∈ ids, x ∈ ids2)
    (h : Tracked ids s) : Tracked ids2 s :=
  ⟨fun p item hp id hid => hsub id (h.handler p item hp id hid),
   fun mii hm => hsub _ (h.queued mii hm)⟩

theorem tracked_congr (ids : List Int) (s t : State) (h : Tracked ids s)
    (h1 : t.widgets = s.widgets) (h2 : t.idle = s.idle) : Tracked ids t := by
  constructor
  · rw [h1]; exact h.handler
  · rw [h2]; exact h.queued

theorem tracked_do_add (ids : List Int) (s : State) (mii : MenuItemInfo) (hwf : WellFormed s)
    (h : Tracked ids s) (hid : mii.menu_id ∈ ids) :
    Tracked ids (do_add_or_update_menu_item s mii) := by
  cases hf : s.global_menu_items.find? (fun item => item.menu_id = mii.menu_id) with
  | some node =>
    rw [do_add_present s mii node hf]
    constructor
    · intro p item hp id hmem
      obtain ⟨f, hf1, hf2, _⟩ := getElem?_updatedWidgets s mii node.menu_item p
      simp only at hp
      rw [hf1] at hp
      cases hg : s.widgets[p]? with
      | none => rw [hg] at hp; simp at hp
      | some old =>
        rw [hg] at hp
        simp at hp
        rw [← hp, (hf2 old).1] at hmem
        exact h.handler p old hg id hmem
    · exact h.queued
  | none =>
    rw [do_add_absent s mii hwf hf]
    constructor
    · intro p item hp id hmem
      simp only at hp
      rcases Nat.lt_trichotomy p s.widgets.length with hlt | heq | hgt
      · rw [List.getElem?_append_left hlt] at hp
        exact h.handler p item hp id hmem
      · subst heq
        simp at hp
        rw [← hp] at hmem
        simp [createdWidget] at hmem
        rw [hmem]; exact hid
      · rw [List.getElem?_eq_none (by simp; omega)] at hp
        cases hp
    · exact h.queued

theorem tracked_dispatchIdle (ids : List Int) (s : State) (io : FileResults) (hwf : WellFormed s)
    (h : Tracked ids s) : Tracked ids (dispatchIdle s io) := by
  unfold dispatchIdle
  cases hq : s.idle with
  | nil => exact h
  | cons source rest =>
    have hrest : Tracked ids { s with idle := rest } :=
      ⟨h.handler, fun mii hm => h.queued mii (by rw [hq]; exact List.mem_cons_of_mem _ hm)⟩
    have hwf2 : WellFormed { s with idle := rest } := wellFormed_congr _ _ hwf rfl rfl rfl rfl
    cases source with
    | do_set_icon bytes =>
      simp only [runSource, do_set_icon]
      split
      · exact hrest
      · split
        · exact tracked_congr ids _ _ hrest rfl rfl
        · exact tracked_congr ids _ _ hrest rfl rfl
    | do_add_or_update_menu_item mii =>
      exact tracked_do_add ids _ mii hwf2 hrest (h.queued mii (by rw [hq]; simp))
    | do_quit => exact tracked_congr ids _ _ hrest rfl rfl

theorem tracked_g_idle_add (ids : List Int) (s : State) (source : IdleSource)
    (h : Tracked ids s)
    (hsrc : ∀ mii, source = IdleSource.do_add_or_update_menu_item mii → mii.menu_id ∈ ids) :
    Tracked ids (g_idle_add s source) := by
  constructor
  · exact h.handler
  · intro mii hm
    simp only [g_idle_add, List.mem_append, List.mem_singleton] at hm
    rcases hm with hm | hm
    · exact h.queued mii hm
    · exact hsrc mii hm.symm

theorem passedIds_append (events : List Event) (e : Event) :
    passedIds (events ++ [e]) = passedIds events ++ passedIds [e] := by
  induction events with
  | nil => simp [passedIds]
  | cons a rest ih =>
    cases a <;> simp [passedIds, ih]

theorem tracked_step (ids : List Int) (s : State) (e : Event) (hwf : WellFormed s)
    (h : Tracked ids s) : Tracked (ids ++ passedIds [e]) (step s e).1 := by
  have hmono : Tracked (ids ++ passedIds [e]) s :=
    tracked_mono ids _ s (fun x hx => List.mem_append_left _ hx) h
  cases e with
  | idle io => exact tracked_dispatchIdle _ s io hwf hmono
  | activate w => exact hmono
  | setIcon iconBytes length =>
    exact tracked_g_idle_add _ s _ hmono (fun mii hm => by cases hm)
  | setTitle ctitle => exact tracked_congr _ _ _ hmono rfl rfl
  | setTooltip ctooltip => exact hmono
  | add_or_update_menu_item menu_id title tooltip disabled checked =>
    refine tracked_g_idle_add _ s _ hmono (fun mii hm => ?_)
    cases hm
    simp [passedIds]
  | quit => exact tracked_g_idle_add _ s _ hmono (fun mii hm => by cases hm)

theorem tracked_run (events : List Event) : Tracked (passedIds events) (run initial events) := by
  induction events using List.reverseRecOn with
  | nil => exact ⟨fun p item hp => by simp [run, initial] at hp, fun mii hm => by simp [run, initial] at hm⟩
  | append_singleton l e ih =>
    rw [run_append, passedIds_append]
    exact tracked_step _ _ e (wellFormed_run l) ih

theorem selected_of_tracked (ids : List Int) (s : State) (e : Event) (h : Tracked ids s)
    (id : Int) (hid : id ∈ (step s e).2) : id ∈ ids := by
  cases e with
  | activate w =>
    simp only [step, emitActivate] at hid
    cases hw : s.widgets[w]? with
    | none => rw [hw] at hid; simp at hid
    | some item => rw [hw] at hid; exact h.handler w item hw id hid
  | idle io => simp [step] at hid
  | setIcon iconBytes length => simp [step] at hid
  | setTitle ctitle => simp [step] at hid
  | setTooltip ctooltip => simp [step] at hid
  | add_or_update_menu_item menu_id title tooltip disabled checked => simp [step] at hid
  | quit => simp [step] at hid


theorem find?_none_of_not_mem (s : State) (menu_id : Int) (h : menu_id ∉ menuIds s) :
    s.global_menu_items.find? (fun item => item.menu_id = menu_id) = none := by
  cases hf : s.global_menu_items.find? (fun item => item.menu_id = menu_id) with
  | none => rfl
  | some node =>
    have := find?_some_mem _ _ node hf
    exact absurd (List.mem_map.mpr ⟨node, this.1, this.2⟩) h

theorem do_add_menu_kept (s : State) (mii : MenuItemInfo) (hwf : WellFormed s) :
    s.global_tray_menu <+: (do_add_or_update_menu_item s mii).global_tray_menu ∧
    s.widgets.length ≤ (do_add_or_update_menu_item s mii).widgets.length := by
  cases hf : s.global_menu_items.find? (fun item => item.menu_id = mii.menu_id) with
  | some node =>
    rw [do_add_present s mii node hf]
    exact ⟨List.prefix_refl _, by simp [length_updatedWidgets]⟩
  | none =>
    rw [do_add_absent s mii hwf hf]
    exact ⟨List.prefix_append _ _, by simp⟩

theorem do_add_new_id (s : State) (mii : MenuItemInfo) (hwf : WellFormed s)
    (h : mii.menu_id ∉ menuItemIds s) :
    (do_add_or_update_menu_item s mii).global_tray_menu =
      s.global_tray_menu ++ [s.widgets.length] ∧
    (do_add_or_update_menu_item s mii).widgets = s.widgets ++ [createdWidget mii] := by
  rw [menuItemIds_eq s hwf, List.mem_reverse] at h
  rw [do_add_absent s mii hwf (find?_none_of_not_mem s mii.menu_id h)]
  exact ⟨rfl, rfl⟩

theorem runSource_idle (s : State) (io : FileResults) (source : IdleSource) :
    (runSource s io source).idle = s.idle := by
  cases source with
  | do_set_icon bytes =>
    simp only [runSource, do_set_icon]
    split
    · rfl
    · split <;> rfl
  | do_add_or_update_menu_item mii =>
    simp only [runSource]
    cases hf : s.global_menu_items.find? (fun item => item.menu_id = mii.menu_id) with
    | some node => rw [do_add_present s mii node hf]
    | none => rw [do_add_absent_raw s mii hf]
  | do_quit => rfl

theorem gtk_main_running (events : List Event) (s : State) (h : WellFormed s) :
    (gtk_main s events).returned = false ∧ (gtk_main s events).state = run s events := by
  induction events generalizing s with
  | nil => exact ⟨h.no_quit, rfl⟩
  | cons e rest ih =>
    have := ih (step s e).1 (wellFormed_step s e h)
    simp only [gtk_main, h.no_quit]
    exact this

theorem run_append_list (s : State) (l1 l2 : List Event) :
    run s (l1 ++ l2) = run (run s l1) l2 := by
  simp [run, List.foldl_append]

theorem quit_task_runs (q : List IdleSource) (s : State) (ios : List FileResults)
    (hq : s.idle = q ++ [IdleSource.do_quit]) (hlen : ios.length = q.length + 1) :
    (run s (ios.map Event.idle)).global_app_indicator.status =
        AppIndicatorStatus.APP_INDICATOR_STATUS_PASSIVE ∧
      (run s (ios.map Event.idle)).idle = [] := by
  induction q generalizing s ios with
  | nil =>
    match ios, hlen with
    | [io], _ =>
      simp only [List.nil_append] at hq
      simp [run, step, dispatchIdle, hq, runSource, do_quit]
  | cons source rest ih =>
    match ios, hlen with
    | io :: ios2, hlen =>
      have hd : dispatchIdle s io =
          runSource { s with idle := rest ++ [IdleSource.do_quit] } io source := by
        simp [dispatchIdle, hq]
      have hidle : (dispatchIdle s io).idle = rest ++ [IdleSource.do_quit] := by
        rw [hd, runSource_idle]
      have := ih (dispatchIdle s io) ios2 hidle (by simpa using hlen)
      simpa [run, step] using this

/-- C8 (amended): on the Linux backend, once the deferred task enqueued by
`quit()` has run (after the tasks that were pending before it), the indicator
status is passive; the event loop has not been stopped, since `gtk_main_quit`
has not been called, and `nativeLoop` has not returned, nor does it return
after any further events. -/
theorem quit_makes_indicator_passive (pre : List Event) (ios : List FileResults) (later : List Event)
    (hlen : ios.length = (run initial pre).idle.length + 1) :
    (nativeLoop (pre ++ [Event.quit] ++ ios.map Event.idle)).state.global_app_indicator.status =
        AppIndicatorStatus.APP_INDICATOR_STATUS_PASSIVE ∧
    (nativeLoop (pre ++ [Event.quit] ++ ios.map Event.idle)).state.idle = [] ∧
    (nativeLoop (pre ++ [Event.quit] ++ ios.map Event.idle)).state.main_quit = false ∧
    (nativeLoop (pre ++ [Event.quit] ++ ios.map Event.idle)).returned = false ∧
    (nativeLoop (pre ++ [Event.quit] ++ ios.map Event.idle ++ later)).returned = false := by
  have h1 := gtk_main_running (pre ++ [Event.quit] ++ ios.map Event.idle) initial wellFormed_initial
  have h2 := gtk_main_running (pre ++ [Event.quit] ++ ios.map Event.idle ++ later) initial
    wellFormed_initial
  unfold nativeLoop
  rw [h1.2]
  have hrun : run initial (pre ++ [Event.quit] ++ ios.map Event.idle) =
      run (quit (run initial pre)) (ios.map Event.idle) := by
    rw [run_append_list, run_append]
    rfl
  have h3 := quit_task_runs (run initial pre).idle (quit (run initial pre)) ios rfl hlen
  refine ⟨?_, ?_, ?_, h1.1, h2.1⟩
  · rw [hrun]; exact h3.1
  · rw [hrun]; exact h3.2
  · exact (wellFormed_run _).no_quit

theorem quit_makes_indicator_passive_witness :
    (nativeLoop ([Event.add_or_update_menu_item 1 "Open" "" 0 0] ++ [Event.quit] ++
        [⟨3, "/tmp/systray_a", 0⟩, ⟨3, "/tmp/systray_a", 0⟩].map Event.idle)).state.global_app_indicator.status =
      AppIndicatorStatus.APP_INDICATOR_STATUS_PASSIVE :=
  (quit_makes_indicator_passive [Event.add_or_update_menu_item 1 "Open" "" 0 0]
    [⟨3, "/tmp/systray_a", 0⟩, ⟨3, "/tmp/systray_a", 0⟩] [] (by decide)).1

/-- C8 (counterexample): `quit()` followed by the run of its deferred task
leaves the indicator passive, but `gtk_main` has not returned and the quit flag
of the main loop is not set, so `nativeLoop` has not returned any status. -/
theorem quit_does_not_stop_the_loop :
    (nativeLoop [Event.quit, Event.idle ⟨3, "", 0⟩]).state.global_app_indicator.status =
      AppIndicatorStatus.APP_INDICATOR_STATUS_PASSIVE ∧
    (nativeLoop [Event.quit, Event.idle ⟨3, "", 0⟩]).state.idle = [] ∧
    (nativeLoop [Event.quit, Event.idle ⟨3, "", 0⟩]).state.main_quit = false ∧
    (nativeLoop [Event.quit, Event.idle ⟨3, "", 0⟩]).returned = false := by
  decide

/-- For icon data whose size is below `2^63` and a `write` result in the range
of `ssize_t`, the comparison `written != size` is the comparison of the two
numbers: `do_set_icon` sets the icon and the attention icon of the indicator to
the name of the temp file when `mkstemp` succeeded and `write` reported all
bytes written, and leaves both unchanged when `mkstemp` failed or the write
was short. -/
theorem do_set_icon_sets_icons (s : State) (io : FileResults) (bytes : GBytes)
    (hsize : bytes.size < 9223372036854775808)
    (hwritten : -9223372036854775808 ≤ io.written ∧ io.written < 9223372036854775808) :
    ((io.fd ≠ -1 ∧ io.written = (bytes.size : Int)) →
      (do_set_icon s io bytes).global_app_indicator.icon_name = io.temp_file_name ∧
      (do_set_icon s io bytes).global_app_indicator.attention_icon_name = io.temp_file_name) ∧
    ((io.fd = -1 ∨ io.written ≠ (bytes.size : Int)) →
      (do_set_icon s io bytes).global_app_indicator.icon_name =
        s.global_app_indicator.icon_name ∧
      (do_set_icon s io bytes).global_app_indicator.attention_icon_name =
        s.global_app_indicator.attention_icon_name) := by
  have hconv : toGsize io.written = bytes.size ↔ io.written = (bytes.size : Int) := by
    unfold toGsize
    omega
  constructor
  · rintro ⟨hfd, hw⟩
    simp [do_set_icon, hfd, hconv.mpr hw]
  · intro h
    rcases h with h | h
    · simp [do_set_icon, h]
    · have hne : ¬ toGsize io.written = bytes.size := fun h2 => h (hconv.mp h2)
      by_cases hfd : io.fd = -1
      · simp [do_set_icon, hfd]
      · simp [do_set_icon, hfd, hne]

theorem do_set_icon_sets_icons_witness :
    (do_set_icon initial ⟨3, "/tmp/systray_a", 2⟩ ⟨[1, 2], 2⟩).global_app_indicator.icon_name =
      "/tmp/systray_a" ∧
    (do_set_icon initial ⟨3, "/tmp/systray_a", 1⟩ ⟨[1, 2], 2⟩).global_app_indicator.icon_name =
      "" :=
  ⟨((do_set_icon_sets_icons initial ⟨3, "/tmp/systray_a", 2⟩ ⟨[1, 2], 2⟩ (by decide)
      (by decide)).1 (by decide)).1,
   ((do_set_icon_sets_icons initial ⟨3, "/tmp/systray_a", 1⟩ ⟨[1, 2], 2⟩ (by decide)
      (by decide)).2 (Or.inr (by decide))).1⟩


theorem getElem?_updatedWidgets_self (s : State) (mii : MenuItemInfo) (w : Nat)
    (old : GtkMenuItem) (h : s.widgets[w]? = some old) :
    ∃ new, (updatedWidgets s mii w)[w]? = some new ∧ new.label = mii.title ∧
      new.sensitive = (if mii.disabled = 1 then false else true) ∧
      new.active = old.active ∧ new.activate = old.activate := by
  unfold updatedWidgets
  rw [getElem?_showAll, List.getElem?_modify, List.getElem?_modify, h]
  by_cases hw : w ∈ s.global_tray_menu <;> simp [hw]

/-- C10 (failing input): `setIcon(iconBytes, -1)` makes a `GBytes` of size
`2^64 - 1`; when its task runs with `mkstemp` succeeding and `write` failing
with `-1`, the test `written != size` converts `-1` to `2^64 - 1`, finds the
two equal, and the icon and the attention icon are both set to the temp file
although no byte was written. -/
theorem failed_write_still_sets_icons :
    (setIcon initial [1, 2] (-1)).idle =
      [IdleSource.do_set_icon ⟨[1, 2], 18446744073709551615⟩] ∧
    initial.global_app_indicator.icon_name = "" ∧
    initial.global_app_indicator.attention_icon_name = "" ∧
    (do_set_icon initial ⟨3, "/tmp/systray_a", -1⟩
        ⟨[1, 2], 18446744073709551615⟩).global_app_indicator.icon_name = "/tmp/systray_a" ∧
    (do_set_icon initial ⟨3, "/tmp/systray_a", -1⟩
        ⟨[1, 2], 18446744073709551615⟩).global_app_indicator.attention_icon_name =
      "/tmp/systray_a" ∧
    (run initial [Event.setIcon [1, 2] (-1),
        Event.idle ⟨3, "/tmp/systray_a", -1⟩]).global_app_indicator.icon_name =
      "/tmp/systray_a" := by
  decide

/-- In a state reached by running tasks, a task for a menu id that is in
`global_menu_items` gives the item bound to the id the title of the task, makes
it insensitive exactly when `disabled == 1`, and leaves its check mark and its
handlers as they were: `checked` is not read. -/
theorem update_in_place (events : List Event) (mii : MenuItemInfo)
    (h : mii.menu_id ∈ menuIds (run initial events)) :
    ∃ w old new, boundItem (run initial events) mii.menu_id = some w ∧
      boundItem (do_add_or_update_menu_item (run initial events) mii) mii.menu_id = some w ∧
      (run initial events).widgets[w]? = some old ∧
      (do_add_or_update_menu_item (run initial events) mii).widgets[w]? = some new ∧
      new.label = mii.title ∧ (new.sensitive = false ↔ mii.disabled = 1) ∧
      new.active = old.active ∧ new.activate = old.activate := by
  have hwf := wellFormed_run events
  obtain ⟨node, hnode⟩ := mem_find?_some _ mii.menu_id h
  have hlt := hwf.node_lt node (find?_some_mem _ _ node hnode).1
  obtain ⟨new, h1, h2, h3, h4, h5⟩ := getElem?_updatedWidgets_self (run initial events) mii
    node.menu_item _ (List.getElem?_eq_getElem hlt)
  refine ⟨node.menu_item, _, new, ?_, ?_, List.getElem?_eq_getElem hlt, ?_, h2, ?_, h4, h5⟩
  · simp [boundItem, hnode]
  · rw [do_add_present _ mii node hnode]
    simp [boundItem, hnode]
  · rw [do_add_present _ mii node hnode]
    exact h1
  · rw [h3]
    by_cases hd : mii.disabled = 1 <;> simp [hd]

/-- C3 (failing input): after the task for `(1, "Open", "", 0, 0)` has created
the item, the task for `(1, "Done", "", 1, 1)` finds it and sets its label to
`"Done"` and makes it insensitive, but the item is still a plain menu item
without check mark: the `checked` flag of the task has had no effect. -/
theorem checked_flag_is_not_applied :
    boundItem (run initial [Event.add_or_update_menu_item 1 "Open" "" 0 0,
      Event.idle ⟨3, "", 0⟩]) 1 = some 0 ∧
    (do_add_or_update_menu_item
        (run initial [Event.add_or_update_menu_item 1 "Open" "" 0 0, Event.idle ⟨3, "", 0⟩])
        ⟨1, "Done", "", 1, 1⟩).widgets =
      [{ label := "Done", sensitive := false, visible := true, active := none,
         activate := [1] }] ∧
    (run initial [Event.add_or_update_menu_item 1 "Open" "" 0 0, Event.idle ⟨3, "", 0⟩,
        Event.add_or_update_menu_item 1 "Done" "" 1 1, Event.idle ⟨3, "", 0⟩]).widgets.map
        (fun item => item.active) = [none] := by
  decide

/-- The four downward functions that defer their work leave the indicator, the
menu, the widgets, `global_menu_items` and the temp file names as they are
when called, and add one idle source (`setTooltip` adds none). -/
theorem deferring_calls_frame (s : State) (source : IdleSource) :
    (g_idle_add s source).global_app_indicator = s.global_app_indicator ∧
    (g_idle_add s source).global_tray_menu = s.global_tray_menu ∧
    (g_idle_add s source).widgets = s.widgets ∧
    (g_idle_add s source).global_menu_items = s.global_menu_items ∧
    (g_idle_add s source).global_temp_icon_file_names = s.global_temp_icon_file_names ∧
    (g_idle_add s source).idle = s.idle ++ [source] ∧
    setTooltip s "" = s :=
  ⟨rfl, rfl, rfl, rfl, rfl, rfl, rfl⟩

/-- C6 (failing input): `setTitle("Tray")` called in the initial state changes
the label of the indicator at once, and adds no idle source: the change is not
deferred to the event loop. -/
theorem setTitle_is_not_deferred :
    initial.global_app_indicator.label = "" ∧
    (setTitle initial "Tray").global_app_indicator.label = "Tray" ∧
    (setTitle initial "Tray").idle = [] ∧
    (step initial (Event.setTitle "Tray")).1.global_app_indicator ≠
      initial.global_app_indicator := by
  decide

end Linux

namespace Systray

/-- C5: on both backends, whatever calls and events came before, an event makes
the backend invoke `systray_menu_item_selected` only with a menu id that one of
the earlier `add_or_update_menu_item` calls passed. On Windows the events are
calls (with `int` menu ids) and retrieved messages, among them
`WM_MENUCOMMAND` with any `wParam`; on Linux they are the downward calls, runs
of idle sources, and `activate` on any widget pointer. -/
theorem selected_ids_were_passed :
    (∀ (pre : List Windows.Input) (ev : Windows.Input) (id : Int),
      (∀ x ∈ Windows.passedIds pre, InIntRange x) →
      Windows.Effect.systray_menu_item_selected id ∈
        (Windows.step (Windows.run [] pre).1 ev).2 →
      id ∈ Windows.passedIds pre) ∧
    (∀ (pre : List Linux.Event) (ev : Linux.Event) (id : Int),
      id ∈ (Linux.step (Linux.run Linux.initial pre) ev).2 → id ∈ Linux.passedIds pre) := by
  constructor
  · intro pre ev id hrange hid
    have h := Windows.fromPassed_run pre [] [] (fun item hitem => by simp at hitem)
    simp only [List.nil_append] at h
    exact Windows.selected_of_fromPassed _ _ ev h hrange id hid
  · intro pre ev id hid
    exact Linux.selected_of_tracked _ _ ev (Linux.tracked_run pre) id hid

theorem selected_ids_were_passed_witness :
    (2 : Int) ∈ Windows.passedIds [Windows.Input.call (fun _ => true) ⟨2, "Quit", "", 0, 0⟩] ∧
    (2 : Int) ∈ Linux.passedIds [Linux.Event.add_or_update_menu_item 2 "Quit" "" 0 0,
      Linux.Event.idle ⟨3, "", 0⟩] :=
  ⟨selected_ids_were_passed.1 [Windows.Input.call (fun _ => true) ⟨2, "Quit", "", 0, 0⟩]
      (Windows.Input.message (fun _ => true) 1 Windows.WM_MENUCOMMAND 0 0) 2
      (by decide) (by decide),
   selected_ids_were_passed.2 [Linux.Event.add_or_update_menu_item 2 "Quit" "" 0 0,
      Linux.Event.idle ⟨3, "", 0⟩] (Linux.Event.activate 0) 2 (by decide)⟩

/-- C9: on both backends, `add_or_update_menu_item` with a menu id that no item
of the menu has adds exactly one item at the end of the menu and leaves the
earlier items as they are, and no call removes or reorders items. On Windows:
the new menu is the old one followed by the new item; after any call (with an
`int` id) the ids of the old menu are a prefix of the new ids, and an item with
another id is still at its position, unchanged. On Linux, in a state reached
by any events: the children of the menu and the widgets are the old ones
followed by the new item; after any task the old children are a prefix of the
new children and no widget is gone. -/
theorem new_items_are_appended :
    (∀ (ok : Nat → Bool) (m : Windows.HMENU) (c : Windows.Call),
      ((∀ item ∈ m, Windows.itemId item ≠ c.menuId) →
        Windows.upsert ok m c =
          m ++ [Windows.newItem c.menuId c.title c.disabled c.checked]) ∧
      (InIntRange c.menuId →
        m.map Windows.itemId <+: (Windows.upsert ok m c).map Windows.itemId ∧
        ∀ (p : Nat) (item : Windows.MENUITEMINFO), m[p]? = some item →
          Windows.itemId item ≠ c.menuId → (Windows.upsert ok m c)[p]? = some item)) ∧
    (∀ (events : List Linux.Event) (mii : Linux.MenuItemInfo),
      (mii.menu_id ∉ Linux.menuItemIds (Linux.run Linux.initial events) →
        (Linux.do_add_or_update_menu_item (Linux.run Linux.initial events) mii).global_tray_menu =
          (Linux.run Linux.initial events).global_tray_menu ++
            [(Linux.run Linux.initial events).widgets.length] ∧
        (Linux.do_add_or_update_menu_item (Linux.run Linux.initial events) mii).widgets =
          (Linux.run Linux.initial events).widgets ++ [Linux.createdWidget mii]) ∧
      (Linux.run Linux.initial events).global_tray_menu <+:
        (Linux.do_add_or_update_menu_item (Linux.run Linux.initial events) mii).global_tray_menu ∧
      (Linux.run Linux.initial events).widgets.length ≤
        (Linux.do_add_or_update_menu_item (Linux.run Linux.initial events) mii).widgets.length) := by
  constructor
  · intro ok m c
    exact ⟨Windows.upsert_absent ok m c,
      fun hrange => ⟨Windows.upsert_ids_kept ok m c hrange,
        fun p item hp hne => Windows.upsert_other_items ok m c p item hp hne⟩⟩
  · intro events mii
    have hwf := Linux.wellFormed_run events
    exact ⟨Linux.do_add_new_id _ mii hwf, Linux.do_add_menu_kept _ mii hwf⟩

theorem new_items_are_appended_witness :
    Windows.upsert (fun _ => true) [⟨"Open", 1, 0⟩] ⟨2, "Quit", "", 0, 0⟩ =
      [⟨"Open", 1, 0⟩, ⟨"Quit", 2, 0⟩] ∧
    (Linux.do_add_or_update_menu_item
        (Linux.run Linux.initial [Linux.Event.add_or_update_menu_item 1 "Open" "" 0 0,
          Linux.Event.idle ⟨3, "", 0⟩]) ⟨2, "Quit", "", 0, 0⟩).global_tray_menu = [0, 1] :=
  ⟨(new_items_are_appended.1 (fun _ => true) [⟨"Open", 1, 0⟩] ⟨2, "Quit", "", 0, 0⟩).1
      (by decide),
   ((new_items_are_appended.2 [Linux.Event.add_or_update_menu_item 1 "Open" "" 0 0,
      Linux.Event.idle ⟨3, "", 0⟩] ⟨2, "Quit", "", 0, 0⟩).1 (by decide)).1⟩

end Systray
